import Mathlib

/-!
Verification of the replica reconciliation engine of `turnerem/zenzen`.

The embedding follows the Go source:

* `core.Entry` (src/core/entry.go) becomes `Entry`; Go `time.Time` values
  are modelled as natural numbers, and `Time.After` is strict `>`.
* A store (the `service.Store` interface together with the behaviour of its
  implementations, src/storage) becomes `Store`: a keyed snapshot of
  entries plus injectable call results (`getAllErr`, `saveErr`,
  `deleteErr`) and a trace `ops` of the calls issued against it.  Go maps
  returned by `GetAll` are modelled as association lists with distinct
  keys; since each loop body of `performSync` reads only the two fixed
  snapshots and writes distinct keys, the results proved below do not
  depend on the iteration order Go leaves unspecified.
* `service.SyncService.performSync` (src/service/sync.go) becomes
  `performSync`, written as two explicit recursions `syncLocalLoop` and
  `syncCloudLoop` over the snapshot lists, exactly mirroring the two
  `range` loops of the source.
* `service.Notes` (src/service/service.go) becomes `Notes`.  The Go field
  `Entries` is a map that is `nil` until `LoadAll` succeeds; it is
  modelled as `Option`, with `none` for the nil map.  Go faults
  (assignment into a nil map panics) are modelled by `Notes.SaveEntry`
  returning `none`.
-/

namespace Zenzen

/-- Embedding of `core.Entry` (src/core/entry.go).  Timestamps are
natural numbers; `EstimatedDuration` is an integer number of
nanoseconds as in Go. -/
structure Entry where
  ID : String
  Title : String
  Tags : List String
  StartedAtTimestamp : Nat
  EndedAtTimestamp : Nat
  LastModifiedTimestamp : Nat
  EstimatedDuration : Int
  Body : String
deriving DecidableEq

/-- One call issued against a store, recorded in the trace of the store.
The Bool records whether the call succeeded. -/
inductive StoreOp where
  | save (e : Entry) (ok : Bool)
  | del (id : String) (ok : Bool)
deriving DecidableEq

/-- Whether a store operation is a delete call. -/
def StoreOp.isDel : StoreOp → Bool
  | .save _ _ => false
  | .del _ _ => true

/-- The id a store operation writes: the ID of the saved entry, or the
deleted key. -/
def StoreOp.targetId : StoreOp → String
  | .save e _ => e.ID
  | .del i _ => i

/-- Keyed lookup in a snapshot, i.e. Go map indexing. -/
def lookupEntry : List (String × Entry) → String → Option Entry
  | [], _ => none
  | p :: rest, id => if p.1 = id then some p.2 else lookupEntry rest id

/-- Go `_, ok := m[id]`. -/
def containsKey : List (String × Entry) → String → Bool
  | [], _ => false
  | p :: rest, id => if p.1 = id then true else containsKey rest id

/-- Keyed insert-or-replace under the key `e.ID`, as the store
implementations do (`entries[entry.ID] = entry` in src/storage, and the
SQL upsert keyed on the `id` primary key). -/
def upsertEntry : List (String × Entry) → Entry → List (String × Entry)
  | [], e => [(e.ID, e)]
  | p :: rest, e => if p.1 = e.ID then (p.1, e) :: rest else p :: upsertEntry rest e

/-- Keyed removal, as Go `delete(m, id)`. -/
def removeKey : List (String × Entry) → String → List (String × Entry)
  | [], _ => []
  | p :: rest, id => if p.1 = id then removeKey rest id else p :: removeKey rest id

/-- The keys of a snapshot are pairwise distinct (a Go map invariant). -/
def nodupKeys : List (String × Entry) → Bool
  | [] => true
  | p :: rest => !containsKey rest p.1 && nodupKeys rest

/-- Every pair of a snapshot is keyed by the ID of its entry (the store
implementations key every record by `entry.ID`). -/
def keysMatch : List (String × Entry) → Bool
  | [] => true
  | p :: rest => decide (p.1 = p.2.ID) && keysMatch rest

/-- A store: its current contents, the injected results of its calls, and
the trace of calls issued so far.  `getAllErr`, `saveErr` and `deleteErr`
model the error values the backing implementation would return. -/
structure Store where
  contents : List (String × Entry)
  getAllErr : Option String
  saveErr : Entry → Option String
  deleteErr : String → Option String
  ops : List StoreOp

/-- `Store.GetAll`: a full snapshot, or the injected error. -/
def Store.GetAll (st : Store) : Except String (List (String × Entry)) :=
  match st.getAllErr with
  | some err => .error err
  | none => .ok st.contents

/-- `Store.SaveEntry`: on success the entry is upserted under its ID and
the given record is stored unmodified; on failure the contents are left
untouched.  Either way the call is recorded in the trace and the error
value of the backing store is returned unmodified. -/
def Store.SaveEntry (st : Store) (e : Entry) : Store × Option String :=
  match st.saveErr e with
  | some err => ({ st with ops := st.ops ++ [StoreOp.save e false] }, some err)
  | none =>
      ({ st with contents := upsertEntry st.contents e,
                 ops := st.ops ++ [StoreOp.save e true] }, none)

/-- `Store.DeleteEntry`: on success the key is removed; the call is
recorded in the trace. -/
def Store.DeleteEntry (st : Store) (id : String) : Store × Option String :=
  match st.deleteErr id with
  | some err => ({ st with ops := st.ops ++ [StoreOp.del id false] }, some err)
  | none =>
      ({ st with contents := removeKey st.contents id,
                 ops := st.ops ++ [StoreOp.del id true] }, none)

/-- A store is well formed when its contents form a valid keyed snapshot. -/
def Store.WFb (st : Store) : Bool :=
  nodupKeys st.contents && keysMatch st.contents

/-- `service.SyncService` (src/service/sync.go): two store handles and the
time of the last completed pass (`time.Time` zero value modelled as 0).
The Go field names are `local` and `cloud`; `local` is a Lean keyword, so
the fields are called `localStore` and `cloudStore`. -/
structure SyncService where
  localStore : Store
  cloudStore : Store
  lastSync : Nat

/-- The first `range` loop of `performSync` (sync.go lines 78 to 107):
for each id of the local snapshot, push it to the cloud store when the
cloud snapshot lacks it, otherwise compare `LastModifiedTimestamp` and
push or pull the strictly newer record; on a tie do nothing.  Go
`a.After(b)` is `b < a`.  Returns the two stores and the updated
`syncedCount` and `conflictCount`. -/
def syncLocalLoop (cloudSnap : List (String × Entry)) :
    List (String × Entry) → Store → Store → Nat → Nat → Store × Store × Nat × Nat
  | [], lo, cl, synced, conflict => (lo, cl, synced, conflict)
  | (id, localEntry) :: rest, lo, cl, synced, conflict =>
    match lookupEntry cloudSnap id with
    | none =>
        let r := cl.SaveEntry localEntry
        syncLocalLoop cloudSnap rest lo r.1
          (if r.2 = none then synced + 1 else synced) conflict
    | some cloudEntry =>
        if cloudEntry.LastModifiedTimestamp < localEntry.LastModifiedTimestamp then
          let r := cl.SaveEntry localEntry
          syncLocalLoop cloudSnap rest lo r.1
            (if r.2 = none then synced + 1 else synced) conflict
        else if localEntry.LastModifiedTimestamp < cloudEntry.LastModifiedTimestamp then
          let r := lo.SaveEntry cloudEntry
          syncLocalLoop cloudSnap rest r.1 cl synced
            (if r.2 = none then conflict + 1 else conflict)
        else
          syncLocalLoop cloudSnap rest lo cl synced conflict

/-- The second `range` loop of `performSync` (sync.go lines 110 to 119):
pull every cloud record whose id is absent from the local snapshot. -/
def syncCloudLoop (localSnap : List (String × Entry)) :
    List (String × Entry) → Store → Nat → Store × Nat
  | [], lo, synced => (lo, synced)
  | (id, cloudEntry) :: rest, lo, synced =>
    if containsKey localSnap id then
      syncCloudLoop localSnap rest lo synced
    else
      let r := lo.SaveEntry cloudEntry
      syncCloudLoop localSnap rest r.1 (if r.2 = none then synced + 1 else synced)

/-- The result of one pass: the updated service, and the pair
`(syncedCount, conflictCount)` the pass computed, or `none` when the pass
aborted on a failed fetch before counting anything. -/
structure SyncOutcome where
  service : SyncService
  counts : Option (Nat × Nat)

/-- `SyncService.performSync` (sync.go lines 58 to 123): fetch both
snapshots, abort if either fetch fails, otherwise run the two loops and
record `now` as the last sync time. -/
def performSync (s : SyncService) (now : Nat) : SyncOutcome :=
  match s.localStore.GetAll with
  | .error _ => ⟨s, none⟩
  | .ok localEntries =>
    match s.cloudStore.GetAll with
    | .error _ => ⟨s, none⟩
    | .ok cloudEntries =>
      let r1 := syncLocalLoop cloudEntries localEntries s.localStore s.cloudStore 0 0
      let r2 := syncCloudLoop localEntries cloudEntries r1.1 r1.2.2.1
      ⟨⟨r2.1, r1.2.1, now⟩, some (r2.2, r1.2.2.2)⟩

/-- `SyncService.SyncNow` (sync.go lines 126 to 128): runs one pass and
returns nothing to the caller; the counts stay inside the pass. -/
def SyncService.SyncNow (s : SyncService) (now : Nat) : SyncService :=
  (performSync s now).service

/-- `SyncService.LastSyncTime` (sync.go lines 131 to 133). -/
def SyncService.LastSyncTime (s : SyncService) : Nat :=
  s.lastSync

/-- `service.Notes` (src/service/service.go): a store handle and the
in-memory copy.  `Entries` is a Go map that is nil until `LoadAll`
succeeds; the nil map is modelled as `none`. -/
structure Notes where
  store : Store
  Entries : Option (List (String × Entry))

/-- `NewNotes` (service.go lines 27 to 29): the `Entries` map is left nil. -/
def NewNotes (store : Store) : Notes :=
  ⟨store, none⟩

/-- `Notes.LoadAll` (service.go lines 31 to 40): on success the fetched
snapshot replaces the in-memory copy; on failure the error is returned
and the copy is untouched. -/
def Notes.LoadAll (l : Notes) : Notes × Option String :=
  match l.store.GetAll with
  | .error err => (l, some err)
  | .ok logs => ({ l with Entries := some logs }, none)

/-- `Notes.SaveEntry` (service.go lines 49 to 55): stamp
`LastModifiedTimestamp` with the current instant, write the stamped
record into the in-memory map, and forward the stamped record to the
store, returning the store error unmodified.  The Go assignment
`l.Entries[entry.ID] = entry` panics when the map is nil; the panic is
modelled by the result `none`. -/
def Notes.SaveEntry (l : Notes) (entry : Entry) (now : Nat) :
    Option (Notes × Option String) :=
  let stamped := { entry with LastModifiedTimestamp := now }
  match l.Entries with
  | none => none
  | some es =>
      let r := l.store.SaveEntry stamped
      some ({ l with store := r.1, Entries := some (upsertEntry es stamped) }, r.2)

/-- `Notes.Delete` (service.go lines 42 to 45): remove from the in-memory
map (Go `delete` on a nil map is a no-op, so `none` stays `none`) and
forward to the store delete, returning its error. -/
def Notes.Delete (l : Notes) (id : String) : Notes × Option String :=
  let r := l.store.DeleteEntry id
  ({ l with store := r.1, Entries := l.Entries.map (fun es => removeKey es id) }, r.2)

/-! ### Basic snapshot lemmas -/

theorem containsKey_eq_isSome_lookupEntry (l : List (String × Entry)) (id : String) :
    containsKey l id = (lookupEntry l id).isSome := by
  induction l with
  | nil => rfl
  | cons p rest ih =>
      by_cases h : p.1 = id <;> simp [containsKey, lookupEntry, h, ih]

theorem containsKey_of_mem {l : List (String × Entry)} {p : String × Entry}
    (hp : p ∈ l) : containsKey l p.1 = true := by
  induction l with
  | nil => cases hp
  | cons q rest ih =>
      rcases List.mem_cons.mp hp with hp | hp
      · subst hp
        simp [containsKey]
      · by_cases h : q.1 = p.1 <;> simp [containsKey, h, ih hp]

theorem lookupEntry_of_mem {l : List (String × Entry)} {p : String × Entry}
    (hn : nodupKeys l = true) (hp : p ∈ l) : lookupEntry l p.1 = some p.2 := by
  induction l with
  | nil => cases hp
  | cons q rest ih =>
      simp only [nodupKeys, Bool.and_eq_true, Bool.not_eq_true'] at hn
      rcases List.mem_cons.mp hp with hp | hp
      · subst hp
        simp [lookupEntry]
      · have hne : q.1 ≠ p.1 := by
          intro h
          rw [h, containsKey_of_mem hp] at hn
          exact absurd hn.1 (by simp)
        simp [lookupEntry, hne, ih hn.2 hp]

theorem mem_of_lookupEntry {l : List (String × Entry)} {id : String} {e : Entry}
    (h : lookupEntry l id = some e) : (id, e) ∈ l := by
  induction l with
  | nil => cases h
  | cons q rest ih =>
      by_cases hq : q.1 = id
      · simp only [lookupEntry, if_pos hq] at h
        cases h
        rw [← hq]
        exact .head _
      · simp only [lookupEntry, if_neg hq] at h
        exact .tail _ (ih h)

theorem lookupEntry_keysMatch {l : List (String × Entry)} {id : String} {e : Entry}
    (hk : keysMatch l = true) (h : lookupEntry l id = some e) : e.ID = id := by
  induction l with
  | nil => cases h
  | cons q rest ih =>
      simp only [keysMatch, Bool.and_eq_true, decide_eq_true_eq] at hk
      by_cases hq : q.1 = id
      · simp only [lookupEntry, if_pos hq] at h
        cases h
        rw [← hk.1, hq]
      · simp only [lookupEntry, if_neg hq] at h
        exact ih hk.2 h

theorem lookupEntry_upsertEntry (l : List (String × Entry)) (e : Entry) (id : String) :
    lookupEntry (upsertEntry l e) id = if id = e.ID then some e else lookupEntry l id := by
  induction l with
  | nil =>
      by_cases h : id = e.ID <;>
        simp [upsertEntry, lookupEntry, h, fun hne => (Ne.symm hne : ¬e.ID = id)]
  | cons p rest ih =>
      by_cases hp : p.1 = e.ID
      · by_cases h : id = e.ID
        · simp [upsertEntry, lookupEntry, hp, h]
        · have hne : p.1 ≠ id := fun hc => h (by rw [← hc, hp])
          have hne2 : ¬e.ID = id := fun hc => h hc.symm
          simp [upsertEntry, lookupEntry, hp, h, hne, hne2]
      · by_cases hq : p.1 = id
        · have : ¬id = e.ID := fun hc => hp (by rw [hq, hc])
          simp [upsertEntry, lookupEntry, hp, hq, this]
        · simp [upsertEntry, lookupEntry, hp, hq, ih]

theorem containsKey_upsertEntry (l : List (String × Entry)) (e : Entry) (id : String) :
    containsKey (upsertEntry l e) id = (if id = e.ID then true else containsKey l id) := by
  rw [containsKey_eq_isSome_lookupEntry, lookupEntry_upsertEntry]
  by_cases h : id = e.ID <;> simp [h, containsKey_eq_isSome_lookupEntry]

theorem nodupKeys_upsertEntry {l : List (String × Entry)} (e : Entry)
    (hn : nodupKeys l = true) : nodupKeys (upsertEntry l e) = true := by
  induction l with
  | nil => simp [upsertEntry, nodupKeys, containsKey]
  | cons p rest ih =>
      simp only [nodupKeys, Bool.and_eq_true, Bool.not_eq_true'] at hn
      by_cases hp : p.1 = e.ID
      · simp only [upsertEntry, if_pos hp, nodupKeys, Bool.and_eq_true,
          Bool.not_eq_true']
        exact ⟨by rw [hp]; rw [hp] at hn; exact hn.1, hn.2⟩
      · simp only [upsertEntry, if_neg hp, nodupKeys, Bool.and_eq_true,
          Bool.not_eq_true', containsKey_upsertEntry, if_neg hp]
        exact ⟨hn.1, ih hn.2⟩

theorem keysMatch_upsertEntry {l : List (String × Entry)} (e : Entry)
    (hk : keysMatch l = true) : keysMatch (upsertEntry l e) = true := by
  induction l with
  | nil => simp [upsertEntry, keysMatch]
  | cons p rest ih =>
      simp only [keysMatch, Bool.and_eq_true, decide_eq_true_eq] at hk
      by_cases hp : p.1 = e.ID
      · simp only [upsertEntry, if_pos hp, keysMatch, Bool.and_eq_true,
          decide_eq_true_eq]
        exact ⟨hp, hk.2⟩
      · simp only [upsertEntry, if_neg hp, keysMatch, Bool.and_eq_true,
          decide_eq_true_eq]
        exact ⟨hk.1, ih hk.2⟩

/-! ### Basic store-call lemmas -/

theorem SaveEntry_snd (st : Store) (e : Entry) :
    (st.SaveEntry e).2 = st.saveErr e := by
  unfold Store.SaveEntry
  cases st.saveErr e <;> rfl

theorem SaveEntry_saveErr (st : Store) (e : Entry) :
    (st.SaveEntry e).1.saveErr = st.saveErr := by
  unfold Store.SaveEntry
  cases st.saveErr e <;> rfl

theorem SaveEntry_getAllErr (st : Store) (e : Entry) :
    (st.SaveEntry e).1.getAllErr = st.getAllErr := by
  unfold Store.SaveEntry
  cases st.saveErr e <;> rfl

theorem SaveEntry_ops (st : Store) (e : Entry) :
    (st.SaveEntry e).1.ops = st.ops ++ [StoreOp.save e (st.saveErr e).isNone] := by
  unfold Store.SaveEntry
  cases h : st.saveErr e <;> simp [h]

theorem SaveEntry_contents (st : Store) (e : Entry) :
    (st.SaveEntry e).1.contents =
      if st.saveErr e = none then upsertEntry st.contents e else st.contents := by
  unfold Store.SaveEntry
  cases h : st.saveErr e <;> simp [h]

theorem WFb_SaveEntry {st : Store} (e : Entry) (h : st.WFb = true) :
    (st.SaveEntry e).1.WFb = true := by
  simp only [Store.WFb, Bool.and_eq_true] at h ⊢
  rw [SaveEntry_contents]
  by_cases hs : st.saveErr e = none
  · simp only [if_pos hs]
    exact ⟨nodupKeys_upsertEntry e h.1, keysMatch_upsertEntry e h.2⟩
  · simp only [if_neg hs]
    exact h

/-! ### What one pass does, element by element

The two loops of `performSync` read only the two snapshots fetched at the
start of the pass, so their effect factors through per-element
descriptions: which save call each element triggers against each store,
whether it bumps a counter, and what the store contents look up to
afterwards. -/

/-- The save call the first loop issues against the local store when it
processes one element of the local snapshot: the pull of a strictly newer
cloud record, if there is one. -/
def loop1LocalOp (cloudSnap : List (String × Entry)) (saveErr : Entry → Option String)
    (p : String × Entry) : Option StoreOp :=
  match lookupEntry cloudSnap p.1 with
  | some ce =>
      if p.2.LastModifiedTimestamp < ce.LastModifiedTimestamp then
        some (StoreOp.save ce (saveErr ce).isNone)
      else none
  | none => none

/-- The save call the first loop issues against the cloud store when it
processes one element of the local snapshot: a push when the id is absent
from the cloud snapshot or the local record is strictly newer. -/
def loop1CloudOp (cloudSnap : List (String × Entry)) (saveErr : Entry → Option String)
    (p : String × Entry) : Option StoreOp :=
  match lookupEntry cloudSnap p.1 with
  | none => some (StoreOp.save p.2 (saveErr p.2).isNone)
  | some ce =>
      if ce.LastModifiedTimestamp < p.2.LastModifiedTimestamp then
        some (StoreOp.save p.2 (saveErr p.2).isNone)
      else none

/-- The save call the second loop issues against the local store when it
processes one element of the cloud snapshot: a pull when the id is absent
from the local snapshot. -/
def loop2LocalOp (localSnap : List (String × Entry)) (saveErr : Entry → Option String)
    (p : String × Entry) : Option StoreOp :=
  if containsKey localSnap p.1 then none
  else some (StoreOp.save p.2 (saveErr p.2).isNone)

/-- Whether one element of the local snapshot bumps `syncedCount` in the
first loop: a push or a local-newer update whose save succeeded. -/
def loop1SyncedHit (cloudSnap : List (String × Entry)) (saveErr : Entry → Option String)
    (p : String × Entry) : Bool :=
  match lookupEntry cloudSnap p.1 with
  | none => (saveErr p.2).isNone
  | some ce =>
      if ce.LastModifiedTimestamp < p.2.LastModifiedTimestamp then (saveErr p.2).isNone
      else false

/-- Whether one element of the local snapshot bumps `conflictCount`: a
cloud-newer update whose save succeeded. -/
def loop1ConflictHit (cloudSnap : List (String × Entry)) (saveErr : Entry → Option String)
    (p : String × Entry) : Bool :=
  match lookupEntry cloudSnap p.1 with
  | some ce =>
      if ce.LastModifiedTimestamp < p.2.LastModifiedTimestamp then false
      else if p.2.LastModifiedTimestamp < ce.LastModifiedTimestamp then (saveErr ce).isNone
      else false
  | none => false

/-- Whether one element of the cloud snapshot bumps `syncedCount` in the
second loop: a pull of a cloud-only record whose save succeeded. -/
def loop2SyncedHit (localSnap : List (String × Entry)) (saveErr : Entry → Option String)
    (p : String × Entry) : Bool :=
  if containsKey localSnap p.1 then false else (saveErr p.2).isNone

/-- Lookup in the local store after the first loop has processed the list
`rest` of the local snapshot, starting from store state `lo`. -/
def loop1LocalView (cloudSnap : List (String × Entry)) (lo : Store)
    (rest : List (String × Entry)) (id : String) : Option Entry :=
  match lookupEntry rest id with
  | some le =>
      match lookupEntry cloudSnap id with
      | some ce =>
          if ce.LastModifiedTimestamp < le.LastModifiedTimestamp then
            lookupEntry lo.contents id
          else if le.LastModifiedTimestamp < ce.LastModifiedTimestamp then
            (if lo.saveErr ce = none then some ce else lookupEntry lo.contents id)
          else lookupEntry lo.contents id
      | none => lookupEntry lo.contents id
  | none => lookupEntry lo.contents id

/-- Lookup in the cloud store after the first loop has processed the list
`rest` of the local snapshot, starting from store state `cl`. -/
def loop1CloudView (cloudSnap : List (String × Entry)) (cl : Store)
    (rest : List (String × Entry)) (id : String) : Option Entry :=
  match lookupEntry rest id with
  | some le =>
      match lookupEntry cloudSnap id with
      | none => (if cl.saveErr le = none then some le else lookupEntry cl.contents id)
      | some ce =>
          if ce.LastModifiedTimestamp < le.LastModifiedTimestamp then
            (if cl.saveErr le = none then some le else lookupEntry cl.contents id)
          else lookupEntry cl.contents id
  | none => lookupEntry cl.contents id

/-- Lookup in the local store after the second loop has processed the
list `rest` of the cloud snapshot, starting from store state `lo`. -/
def loop2LocalView (localSnap : List (String × Entry)) (lo : Store)
    (rest : List (String × Entry)) (id : String) : Option Entry :=
  match lookupEntry rest id with
  | some ce =>
      if containsKey localSnap id then lookupEntry lo.contents id
      else (if lo.saveErr ce = none then some ce else lookupEntry lo.contents id)
  | none => lookupEntry lo.contents id

/-- The first loop never changes the injected call results of either
store. -/
theorem syncLocalLoop_preserve (cloudSnap rest : List (String × Entry))
    (lo cl : Store) (s c : Nat) :
    (syncLocalLoop cloudSnap rest lo cl s c).1.saveErr = lo.saveErr ∧
    (syncLocalLoop cloudSnap rest lo cl s c).1.getAllErr = lo.getAllErr ∧
    (syncLocalLoop cloudSnap rest lo cl s c).2.1.saveErr = cl.saveErr ∧
    (syncLocalLoop cloudSnap rest lo cl s c).2.1.getAllErr = cl.getAllErr := by
  induction rest generalizing lo cl s c with
  | nil => exact ⟨rfl, rfl, rfl, rfl⟩
  | cons p rest ih =>
      obtain ⟨id, le⟩ := p
      simp only [syncLocalLoop]
      cases lookupEntry cloudSnap id with
      | none =>
          simpa [SaveEntry_saveErr, SaveEntry_getAllErr] using
            ih lo (cl.SaveEntry le).1 _ _
      | some ce =>
          by_cases h1 : ce.LastModifiedTimestamp < le.LastModifiedTimestamp
          · simp only [if_pos h1]
            simpa [SaveEntry_saveErr, SaveEntry_getAllErr] using
              ih lo (cl.SaveEntry le).1 _ _
          · by_cases h2 : le.LastModifiedTimestamp < ce.LastModifiedTimestamp
            · simp only [if_neg h1, if_pos h2]
              simpa [SaveEntry_saveErr, SaveEntry_getAllErr] using
                ih (lo.SaveEntry ce).1 cl _ _
            · simp only [if_neg h1, if_neg h2]
              exact ih lo cl _ _

/-- The second loop never changes the injected call results of the local
store. -/
theorem syncCloudLoop_preserve (localSnap rest : List (String × Entry))
    (lo : Store) (s : Nat) :
    (syncCloudLoop localSnap rest lo s).1.saveErr = lo.saveErr ∧
    (syncCloudLoop localSnap rest lo s).1.getAllErr = lo.getAllErr := by
  induction rest generalizing lo s with
  | nil => exact ⟨rfl, rfl⟩
  | cons p rest ih =>
      obtain ⟨id, ce⟩ := p
      simp only [syncCloudLoop]
      by_cases h : containsKey localSnap id
      · simp only [if_pos h]
        exact ih lo _
      · simp only [if_neg h]
        simpa [SaveEntry_saveErr, SaveEntry_getAllErr] using ih (lo.SaveEntry ce).1 _

/-- The first loop preserves well-formedness of both stores. -/
theorem syncLocalLoop_WFb (cloudSnap rest : List (String × Entry))
    (lo cl : Store) (s c : Nat) (hlo : lo.WFb = true) (hcl : cl.WFb = true) :
    (syncLocalLoop cloudSnap rest lo cl s c).1.WFb = true ∧
    (syncLocalLoop cloudSnap rest lo cl s c).2.1.WFb = true := by
  induction rest generalizing lo cl s c with
  | nil => exact ⟨hlo, hcl⟩
  | cons p rest ih =>
      obtain ⟨id, le⟩ := p
      simp only [syncLocalLoop]
      cases lookupEntry cloudSnap id with
      | none => exact ih lo (cl.SaveEntry le).1 _ _ hlo (WFb_SaveEntry le hcl)
      | some ce =>
          by_cases h1 : ce.LastModifiedTimestamp < le.LastModifiedTimestamp
          · simp only [if_pos h1]
            exact ih lo (cl.SaveEntry le).1 _ _ hlo (WFb_SaveEntry le hcl)
          · by_cases h2 : le.LastModifiedTimestamp < ce.LastModifiedTimestamp
            · simp only [if_neg h1, if_pos h2]
              exact ih (lo.SaveEntry ce).1 cl _ _ (WFb_SaveEntry ce hlo) hcl
            · simp only [if_neg h1, if_neg h2]
              exact ih lo cl _ _ hlo hcl

/-- The second loop preserves well-formedness of the local store. -/
theorem syncCloudLoop_WFb (localSnap rest : List (String × Entry))
    (lo : Store) (s : Nat) (hlo : lo.WFb = true) :
    (syncCloudLoop localSnap rest lo s).1.WFb = true := by
  induction rest generalizing lo s with
  | nil => exact hlo
  | cons p rest ih =>
      obtain ⟨id, ce⟩ := p
      simp only [syncCloudLoop]
      by_cases h : containsKey localSnap id
      · simp only [if_pos h]
        exact ih lo _ hlo
      · simp only [if_neg h]
        exact ih (lo.SaveEntry ce).1 _ (WFb_SaveEntry ce hlo)

/-- Trace of the local store after the first loop: the initial trace
followed by exactly the pulls the loop issues, in snapshot order. -/
theorem syncLocalLoop_local_ops (cloudSnap rest : List (String × Entry))
    (lo cl : Store) (s c : Nat) :
    (syncLocalLoop cloudSnap rest lo cl s c).1.ops =
      lo.ops ++ rest.filterMap (loop1LocalOp cloudSnap lo.saveErr) := by
  induction rest generalizing lo cl s c with
  | nil => simp [syncLocalLoop]
  | cons p rest ih =>
      obtain ⟨id, le⟩ := p
      simp only [syncLocalLoop]
      cases hce : lookupEntry cloudSnap id with
      | none =>
          rw [ih lo (cl.SaveEntry le).1]
          simp [List.filterMap_cons, loop1LocalOp, hce]
      | some ce =>
          dsimp only
          by_cases h1 : ce.LastModifiedTimestamp < le.LastModifiedTimestamp
          · rw [if_pos h1, ih lo (cl.SaveEntry le).1]
            simp [List.filterMap_cons, loop1LocalOp, hce, Nat.lt_asymm h1]
          · by_cases h2 : le.LastModifiedTimestamp < ce.LastModifiedTimestamp
            · rw [if_neg h1, if_pos h2, ih (lo.SaveEntry ce).1 cl]
              simp [List.filterMap_cons, loop1LocalOp, hce, h2,
                SaveEntry_ops, SaveEntry_saveErr]
            · rw [if_neg h1, if_neg h2, ih lo cl]
              simp [List.filterMap_cons, loop1LocalOp, hce, h2]

/-- Trace of the cloud store after the first loop: the initial trace
followed by exactly the pushes and local-newer updates, in snapshot
order. -/
theorem syncLocalLoop_cloud_ops (cloudSnap rest : List (String × Entry))
    (lo cl : Store) (s c : Nat) :
    (syncLocalLoop cloudSnap rest lo cl s c).2.1.ops =
      cl.ops ++ rest.filterMap (loop1CloudOp cloudSnap cl.saveErr) := by
  induction rest generalizing lo cl s c with
  | nil => simp [syncLocalLoop]
  | cons p rest ih =>
      obtain ⟨id, le⟩ := p
      simp only [syncLocalLoop]
      cases hce : lookupEntry cloudSnap id with
      | none =>
          rw [ih lo (cl.SaveEntry le).1]
          simp [List.filterMap_cons, loop1CloudOp, hce,
            SaveEntry_ops, SaveEntry_saveErr]
      | some ce =>
          dsimp only
          by_cases h1 : ce.LastModifiedTimestamp < le.LastModifiedTimestamp
          · rw [if_pos h1, ih lo (cl.SaveEntry le).1]
            simp [List.filterMap_cons, loop1CloudOp, hce, h1,
              SaveEntry_ops, SaveEntry_saveErr]
          · by_cases h2 : le.LastModifiedTimestamp < ce.LastModifiedTimestamp
            · rw [if_neg h1, if_pos h2, ih (lo.SaveEntry ce).1 cl]
              simp [List.filterMap_cons, loop1CloudOp, hce, h1]
            · rw [if_neg h1, if_neg h2, ih lo cl]
              simp [List.filterMap_cons, loop1CloudOp, hce, h1]

/-- Trace of the local store after the second loop: the initial trace
followed by exactly the pulls of cloud-only records, in snapshot order. -/
theorem syncCloudLoop_local_ops (localSnap rest : List (String × Entry))
    (lo : Store) (s : Nat) :
    (syncCloudLoop localSnap rest lo s).1.ops =
      lo.ops ++ rest.filterMap (loop2LocalOp localSnap lo.saveErr) := by
  induction rest generalizing lo s with
  | nil => simp [syncCloudLoop]
  | cons p rest ih =>
      obtain ⟨id, ce⟩ := p
      simp only [syncCloudLoop]
      by_cases h : containsKey localSnap id
      · rw [if_pos h, ih lo]
        simp [List.filterMap_cons, loop2LocalOp, h]
      · rw [if_neg h, ih (lo.SaveEntry ce).1]
        simp [List.filterMap_cons, loop2LocalOp, h,
          SaveEntry_ops, SaveEntry_saveErr]

/-- The two counters of the first loop count exactly the successful
pushes and local-newer updates, and the successful cloud-newer updates. -/
theorem syncLocalLoop_counts (cloudSnap rest : List (String × Entry))
    (lo cl : Store) (s c : Nat) :
    (syncLocalLoop cloudSnap rest lo cl s c).2.2 =
      (s + rest.countP (loop1SyncedHit cloudSnap cl.saveErr),
       c + rest.countP (loop1ConflictHit cloudSnap lo.saveErr)) := by
  induction rest generalizing lo cl s c with
  | nil => simp [syncLocalLoop]
  | cons p rest ih =>
      obtain ⟨id, le⟩ := p
      simp only [syncLocalLoop]
      cases hce : lookupEntry cloudSnap id with
      | none =>
          rw [ih lo (cl.SaveEntry le).1, SaveEntry_saveErr, SaveEntry_snd]
          cases hs : cl.saveErr le <;>
            simp [List.countP_cons, loop1SyncedHit, loop1ConflictHit, hce, hs] <;>
            omega
      | some ce =>
          dsimp only
          by_cases h1 : ce.LastModifiedTimestamp < le.LastModifiedTimestamp
          · rw [if_pos h1, ih lo (cl.SaveEntry le).1, SaveEntry_saveErr, SaveEntry_snd]
            cases hs : cl.saveErr le <;>
              simp [List.countP_cons, loop1SyncedHit, loop1ConflictHit, hce, hs, h1] <;>
              omega
          · by_cases h2 : le.LastModifiedTimestamp < ce.LastModifiedTimestamp
            · rw [if_neg h1, if_pos h2, ih (lo.SaveEntry ce).1 cl, SaveEntry_saveErr,
                SaveEntry_snd]
              cases hs : lo.saveErr ce <;>
                simp [List.countP_cons, loop1SyncedHit, loop1ConflictHit, hce, hs,
                  h1, h2] <;>
                omega
            · rw [if_neg h1, if_neg h2, ih lo cl]
              simp [List.countP_cons, loop1SyncedHit, loop1ConflictHit, hce, h1, h2]

/-- The counter of the second loop counts exactly the successful pulls of
cloud-only records. -/
theorem syncCloudLoop_counts (localSnap rest : List (String × Entry))
    (lo : Store) (s : Nat) :
    (syncCloudLoop localSnap rest lo s).2 =
      s + rest.countP (loop2SyncedHit localSnap lo.saveErr) := by
  induction rest generalizing lo s with
  | nil => simp [syncCloudLoop]
  | cons p rest ih =>
      obtain ⟨id, ce⟩ := p
      simp only [syncCloudLoop]
      by_cases h : containsKey localSnap id
      · rw [if_pos h, ih lo]
        simp [List.countP_cons, loop2SyncedHit, h]
      · rw [if_neg h, ih (lo.SaveEntry ce).1, SaveEntry_saveErr, SaveEntry_snd]
        cases hs : lo.saveErr ce <;>
          simp [List.countP_cons, loop2SyncedHit, h, hs] <;>
          omega

theorem lookupEntry_eq_none {l : List (String × Entry)} {id : String}
    (h : containsKey l id = false) : lookupEntry l id = none := by
  rcases hx : lookupEntry l id with _ | e
  · rfl
  · rw [containsKey_eq_isSome_lookupEntry, hx] at h
    cases h

theorem lookupEntry_SaveEntry (st : Store) (e : Entry) (id : String) :
    lookupEntry (st.SaveEntry e).1.contents id =
      if st.saveErr e = none then
        (if id = e.ID then some e else lookupEntry st.contents id)
      else lookupEntry st.contents id := by
  rw [SaveEntry_contents]
  by_cases h : st.saveErr e = none <;> simp [h, lookupEntry_upsertEntry]

theorem lookupEntry_SaveEntry_ne (st : Store) (e : Entry) (id : String)
    (h : ¬id = e.ID) :
    lookupEntry (st.SaveEntry e).1.contents id = lookupEntry st.contents id := by
  rw [lookupEntry_SaveEntry]
  by_cases hs : st.saveErr e = none <;> simp [hs, h]

/-! Unfolding and congruence lemmas for the three view functions. -/

theorem loop1LocalView_none (cloudSnap rest : List (String × Entry)) (lo : Store)
    (id : String) (h : lookupEntry rest id = none) :
    loop1LocalView cloudSnap lo rest id = lookupEntry lo.contents id := by
  unfold loop1LocalView
  rw [h]

theorem loop1LocalView_some (cloudSnap rest : List (String × Entry)) (lo : Store)
    (id : String) (le : Entry) (h : lookupEntry rest id = some le) :
    loop1LocalView cloudSnap lo rest id =
      match lookupEntry cloudSnap id with
      | some ce =>
          if ce.LastModifiedTimestamp < le.LastModifiedTimestamp then
            lookupEntry lo.contents id
          else if le.LastModifiedTimestamp < ce.LastModifiedTimestamp then
            (if lo.saveErr ce = none then some ce else lookupEntry lo.contents id)
          else lookupEntry lo.contents id
      | none => lookupEntry lo.contents id := by
  unfold loop1LocalView
  rw [h]

theorem loop1LocalView_rest_congr (cloudSnap rest1 rest2 : List (String × Entry))
    (lo : Store) (id : String) (h : lookupEntry rest1 id = lookupEntry rest2 id) :
    loop1LocalView cloudSnap lo rest1 id = loop1LocalView cloudSnap lo rest2 id := by
  unfold loop1LocalView
  rw [h]

theorem loop1LocalView_store_congr (cloudSnap rest : List (String × Entry))
    (lo lo2 : Store) (id : String)
    (h1 : lookupEntry lo2.contents id = lookupEntry lo.contents id)
    (h2 : lo2.saveErr = lo.saveErr) :
    loop1LocalView cloudSnap lo2 rest id = loop1LocalView cloudSnap lo rest id := by
  unfold loop1LocalView
  cases lookupEntry rest id with
  | none => exact h1
  | some le =>
      cases lookupEntry cloudSnap id with
      | none => exact h1
      | some ce => dsimp only; rw [h1, h2]

theorem loop1CloudView_none (cloudSnap rest : List (String × Entry)) (cl : Store)
    (id : String) (h : lookupEntry rest id = none) :
    loop1CloudView cloudSnap cl rest id = lookupEntry cl.contents id := by
  unfold loop1CloudView
  rw [h]

theorem loop1CloudView_some (cloudSnap rest : List (String × Entry)) (cl : Store)
    (id : String) (le : Entry) (h : lookupEntry rest id = some le) :
    loop1CloudView cloudSnap cl rest id =
      match lookupEntry cloudSnap id with
      | none => (if cl.saveErr le = none then some le else lookupEntry cl.contents id)
      | some ce =>
          if ce.LastModifiedTimestamp < le.LastModifiedTimestamp then
            (if cl.saveErr le = none then some le else lookupEntry cl.contents id)
          else lookupEntry cl.contents id := by
  unfold loop1CloudView
  rw [h]

theorem loop1CloudView_rest_congr (cloudSnap rest1 rest2 : List (String × Entry))
    (cl : Store) (id : String) (h : lookupEntry rest1 id = lookupEntry rest2 id) :
    loop1CloudView cloudSnap cl rest1 id = loop1CloudView cloudSnap cl rest2 id := by
  unfold loop1CloudView
  rw [h]

theorem loop1CloudView_store_congr (cloudSnap rest : List (String × Entry))
    (cl cl2 : Store) (id : String)
    (h1 : lookupEntry cl2.contents id = lookupEntry cl.contents id)
    (h2 : cl2.saveErr = cl.saveErr) :
    loop1CloudView cloudSnap cl2 rest id = loop1CloudView cloudSnap cl rest id := by
  unfold loop1CloudView
  cases lookupEntry rest id with
  | none => exact h1
  | some le =>
      cases lookupEntry cloudSnap id with
      | none => dsimp only; rw [h1, h2]
      | some ce => dsimp only; rw [h1, h2]

theorem loop2LocalView_none (localSnap rest : List (String × Entry)) (lo : Store)
    (id : String) (h : lookupEntry rest id = none) :
    loop2LocalView localSnap lo rest id = lookupEntry lo.contents id := by
  unfold loop2LocalView
  rw [h]

theorem loop2LocalView_some (localSnap rest : List (String × Entry)) (lo : Store)
    (id : String) (ce : Entry) (h : lookupEntry rest id = some ce) :
    loop2LocalView localSnap lo rest id =
      (if containsKey localSnap id then lookupEntry lo.contents id
       else (if lo.saveErr ce = none then some ce else lookupEntry lo.contents id)) := by
  unfold loop2LocalView
  rw [h]

theorem loop2LocalView_rest_congr (localSnap rest1 rest2 : List (String × Entry))
    (lo : Store) (id : String) (h : lookupEntry rest1 id = lookupEntry rest2 id) :
    loop2LocalView localSnap lo rest1 id = loop2LocalView localSnap lo rest2 id := by
  unfold loop2LocalView
  rw [h]

theorem loop2LocalView_store_congr (localSnap rest : List (String × Entry))
    (lo lo2 : Store) (id : String)
    (h1 : lookupEntry lo2.contents id = lookupEntry lo.contents id)
    (h2 : lo2.saveErr = lo.saveErr) :
    loop2LocalView localSnap lo2 rest id = loop2LocalView localSnap lo rest id := by
  unfold loop2LocalView
  cases lookupEntry rest id with
  | none => exact h1
  | some ce =>
      dsimp only
      rw [h1, h2]

/-- Contents of the local store after the first loop, key by key. -/
theorem syncLocalLoop_local_lookup (cloudSnap : List (String × Entry))
    (hkc : keysMatch cloudSnap = true) :
    ∀ (rest : List (String × Entry)) (lo cl : Store) (s c : Nat) (id : String),
      nodupKeys rest = true →
      lookupEntry (syncLocalLoop cloudSnap rest lo cl s c).1.contents id =
        loop1LocalView cloudSnap lo rest id := by
  intro rest
  induction rest with
  | nil =>
      intro lo cl s c id _
      rw [loop1LocalView_none cloudSnap [] lo id rfl]
      rfl
  | cons p rest ih =>
      obtain ⟨hid, le⟩ := p
      intro lo cl s c id hn
      simp only [nodupKeys, Bool.and_eq_true, Bool.not_eq_true'] at hn
      obtain ⟨hnc, hn'⟩ := hn
      have hre : lookupEntry rest hid = none := lookupEntry_eq_none hnc
      simp only [syncLocalLoop]
      by_cases hi : hid = id
      · subst hi
        have hcons : lookupEntry ((hid, le) :: rest) hid = some le := by
          simp [lookupEntry]
        rw [loop1LocalView_some _ _ _ _ _ hcons]
        cases hce : lookupEntry cloudSnap hid with
        | none =>
            dsimp only
            rw [ih lo (cl.SaveEntry le).1 _ _ hid hn',
              loop1LocalView_none _ _ _ _ hre]
        | some ce =>
            dsimp only
            by_cases h1 : ce.LastModifiedTimestamp < le.LastModifiedTimestamp
            · rw [if_pos h1, ih lo (cl.SaveEntry le).1 _ _ hid hn',
                loop1LocalView_none _ _ _ _ hre, if_pos h1]
            · by_cases h2 : le.LastModifiedTimestamp < ce.LastModifiedTimestamp
              · rw [if_neg h1, if_pos h2, ih (lo.SaveEntry ce).1 cl _ _ hid hn',
                  loop1LocalView_none _ _ _ _ hre, if_neg h1, if_pos h2,
                  lookupEntry_SaveEntry]
                have hceid : ce.ID = hid := lookupEntry_keysMatch hkc hce
                rw [hceid]
                simp
              · rw [if_neg h1, if_neg h2, ih lo cl _ _ hid hn',
                  loop1LocalView_none _ _ _ _ hre, if_neg h1, if_neg h2]
      · have hcons : lookupEntry ((hid, le) :: rest) id = lookupEntry rest id := by
          simp [lookupEntry, hi]
        rw [loop1LocalView_rest_congr cloudSnap ((hid, le) :: rest) rest lo id hcons]
        cases hce : lookupEntry cloudSnap hid with
        | none =>
            dsimp only
            rw [ih lo (cl.SaveEntry le).1 _ _ id hn']
        | some ce =>
            dsimp only
            by_cases h1 : ce.LastModifiedTimestamp < le.LastModifiedTimestamp
            · rw [if_pos h1, ih lo (cl.SaveEntry le).1 _ _ id hn']
            · by_cases h2 : le.LastModifiedTimestamp < ce.LastModifiedTimestamp
              · rw [if_neg h1, if_pos h2, ih (lo.SaveEntry ce).1 cl _ _ id hn']
                have hceid : ce.ID = hid := lookupEntry_keysMatch hkc hce
                have hne : ¬id = ce.ID := by rw [hceid]; exact fun hc => hi hc.symm
                exact loop1LocalView_store_congr _ _ _ _ _
                  (lookupEntry_SaveEntry_ne _ _ _ hne) (SaveEntry_saveErr lo ce)
              · rw [if_neg h1, if_neg h2, ih lo cl _ _ id hn']

/-- Contents of the cloud store after the first loop, key by key. -/
theorem syncLocalLoop_cloud_lookup (cloudSnap : List (String × Entry)) :
    ∀ (rest : List (String × Entry)) (lo cl : Store) (s c : Nat) (id : String),
      nodupKeys rest = true → keysMatch rest = true →
      lookupEntry (syncLocalLoop cloudSnap rest lo cl s c).2.1.contents id =
        loop1CloudView cloudSnap cl rest id := by
  intro rest
  induction rest with
  | nil =>
      intro lo cl s c id _ _
      rw [loop1CloudView_none cloudSnap [] cl id rfl]
      rfl
  | cons p rest ih =>
      obtain ⟨hid, le⟩ := p
      intro lo cl s c id hn hk
      simp only [nodupKeys, Bool.and_eq_true, Bool.not_eq_true'] at hn
      obtain ⟨hnc, hn'⟩ := hn
      simp only [keysMatch, Bool.and_eq_true, decide_eq_true_eq] at hk
      obtain ⟨hkid, hk'⟩ := hk
      have hre : lookupEntry rest hid = none := lookupEntry_eq_none hnc
      simp only [syncLocalLoop]
      by_cases hi : hid = id
      · subst hi
        have hcons : lookupEntry ((hid, le) :: rest) hid = some le := by
          simp [lookupEntry]
        rw [loop1CloudView_some _ _ _ _ _ hcons]
        cases hce : lookupEntry cloudSnap hid with
        | none =>
            dsimp only
            rw [ih lo (cl.SaveEntry le).1 _ _ hid hn' hk',
              loop1CloudView_none _ _ _ _ hre, lookupEntry_SaveEntry, ← hkid]
            simp
        | some ce =>
            dsimp only
            by_cases h1 : ce.LastModifiedTimestamp < le.LastModifiedTimestamp
            · rw [if_pos h1, ih lo (cl.SaveEntry le).1 _ _ hid hn' hk',
                loop1CloudView_none _ _ _ _ hre, if_pos h1, lookupEntry_SaveEntry,
                ← hkid]
              simp
            · by_cases h2 : le.LastModifiedTimestamp < ce.LastModifiedTimestamp
              · rw [if_neg h1, if_pos h2, ih (lo.SaveEntry ce).1 cl _ _ hid hn' hk',
                  loop1CloudView_none _ _ _ _ hre, if_neg h1]
              · rw [if_neg h1, if_neg h2, ih lo cl _ _ hid hn' hk',
                  loop1CloudView_none _ _ _ _ hre, if_neg h1]
      · have hcons : lookupEntry ((hid, le) :: rest) id = lookupEntry rest id := by
          simp [lookupEntry, hi]
        rw [loop1CloudView_rest_congr cloudSnap ((hid, le) :: rest) rest cl id hcons]
        have hne : ¬id = le.ID := by rw [← hkid]; exact fun hc => hi hc.symm
        cases hce : lookupEntry cloudSnap hid with
        | none =>
            dsimp only
            rw [ih lo (cl.SaveEntry le).1 _ _ id hn' hk']
            exact loop1CloudView_store_congr _ _ _ _ _
              (lookupEntry_SaveEntry_ne _ _ _ hne) (SaveEntry_saveErr cl le)
        | some ce =>
            dsimp only
            by_cases h1 : ce.LastModifiedTimestamp < le.LastModifiedTimestamp
            · rw [if_pos h1, ih lo (cl.SaveEntry le).1 _ _ id hn' hk']
              exact loop1CloudView_store_congr _ _ _ _ _
                (lookupEntry_SaveEntry_ne _ _ _ hne) (SaveEntry_saveErr cl le)
            · by_cases h2 : le.LastModifiedTimestamp < ce.LastModifiedTimestamp
              · rw [if_neg h1, if_pos h2, ih (lo.SaveEntry ce).1 cl _ _ id hn' hk']
              · rw [if_neg h1, if_neg h2, ih lo cl _ _ id hn' hk']

/-- Contents of the local store after the second loop, key by key. -/
theorem syncCloudLoop_local_lookup (localSnap : List (String × Entry)) :
    ∀ (rest : List (String × Entry)) (lo : Store) (s : Nat) (id : String),
      nodupKeys rest = true → keysMatch rest = true →
      lookupEntry (syncCloudLoop localSnap rest lo s).1.contents id =
        loop2LocalView localSnap lo rest id := by
  intro rest
  induction rest with
  | nil =>
      intro lo s id _ _
      rw [loop2LocalView_none localSnap [] lo id rfl]
      rfl
  | cons p rest ih =>
      obtain ⟨hid, ce⟩ := p
      intro lo s id hn hk
      simp only [nodupKeys, Bool.and_eq_true, Bool.not_eq_true'] at hn
      obtain ⟨hnc, hn'⟩ := hn
      simp only [keysMatch, Bool.and_eq_true, decide_eq_true_eq] at hk
      obtain ⟨hkid, hk'⟩ := hk
      have hre : lookupEntry rest hid = none := lookupEntry_eq_none hnc
      simp only [syncCloudLoop]
      by_cases hi : hid = id
      · subst hi
        have hcons : lookupEntry ((hid, ce) :: rest) hid = some ce := by
          simp [lookupEntry]
        rw [loop2LocalView_some _ _ _ _ _ hcons]
        by_cases h : containsKey localSnap hid
        · rw [if_pos h, ih lo _ hid hn' hk', loop2LocalView_none _ _ _ _ hre,
            if_pos h]
        · rw [if_neg h, ih (lo.SaveEntry ce).1 _ hid hn' hk',
            loop2LocalView_none _ _ _ _ hre, if_neg h, lookupEntry_SaveEntry, ← hkid]
          simp
      · have hcons : lookupEntry ((hid, ce) :: rest) id = lookupEntry rest id := by
          simp [lookupEntry, hi]
        rw [loop2LocalView_rest_congr localSnap ((hid, ce) :: rest) rest lo id hcons]
        by_cases h : containsKey localSnap hid
        · rw [if_pos h, ih lo _ id hn' hk']
        · rw [if_neg h, ih (lo.SaveEntry ce).1 _ id hn' hk']
          have hne : ¬id = ce.ID := by rw [← hkid]; exact fun hc => hi hc.symm
          exact loop2LocalView_store_congr _ _ _ _ _
            (lookupEntry_SaveEntry_ne _ _ _ hne) (SaveEntry_saveErr lo ce)

/-! ### Pass-level lemmas -/

/-- Unfolding of one pass when both fetches succeed. -/
theorem performSync_eq (s : SyncService) (now : Nat)
    (hl : s.localStore.getAllErr = none) (hc : s.cloudStore.getAllErr = none) :
    performSync s now =
      ⟨⟨(syncCloudLoop s.localStore.contents s.cloudStore.contents
           (syncLocalLoop s.cloudStore.contents s.localStore.contents
             s.localStore s.cloudStore 0 0).1
           (syncLocalLoop s.cloudStore.contents s.localStore.contents
             s.localStore s.cloudStore 0 0).2.2.1).1,
        (syncLocalLoop s.cloudStore.contents s.localStore.contents
          s.localStore s.cloudStore 0 0).2.1,
        now⟩,
       some ((syncCloudLoop s.localStore.contents s.cloudStore.contents
               (syncLocalLoop s.cloudStore.contents s.localStore.contents
                 s.localStore s.cloudStore 0 0).1
               (syncLocalLoop s.cloudStore.contents s.localStore.contents
                 s.localStore s.cloudStore 0 0).2.2.1).2,
             (syncLocalLoop s.cloudStore.contents s.localStore.contents
               s.localStore s.cloudStore 0 0).2.2.2)⟩ := by
  unfold performSync Store.GetAll
  rw [hl, hc]

/-- A failed fetch from either store aborts the pass before anything is
written: the whole service, both stores and their traces included, is
returned unchanged and no counts are produced. -/
theorem performSync_fetchFail (s : SyncService) (now : Nat)
    (h : ¬s.localStore.getAllErr = none ∨ ¬s.cloudStore.getAllErr = none) :
    performSync s now = ⟨s, none⟩ := by
  unfold performSync Store.GetAll
  rcases h with h | h
  · cases hx : s.localStore.getAllErr with
    | none => exact absurd hx h
    | some err => rfl
  · cases hx : s.cloudStore.getAllErr with
    | none => exact absurd hx h
    | some err =>
        cases hy : s.localStore.getAllErr with
        | none => rfl
        | some err2 => rfl

/-- A pass never changes the injected call results of either store. -/
theorem performSync_preserve (s : SyncService) (now : Nat) :
    (performSync s now).service.localStore.saveErr = s.localStore.saveErr ∧
    (performSync s now).service.localStore.getAllErr = s.localStore.getAllErr ∧
    (performSync s now).service.cloudStore.saveErr = s.cloudStore.saveErr ∧
    (performSync s now).service.cloudStore.getAllErr = s.cloudStore.getAllErr := by
  by_cases hl : s.localStore.getAllErr = none
  · by_cases hc : s.cloudStore.getAllErr = none
    · rw [performSync_eq s now hl hc]
      dsimp only
      obtain ⟨h1, h2, h3, h4⟩ := syncLocalLoop_preserve s.cloudStore.contents
        s.localStore.contents s.localStore s.cloudStore 0 0
      obtain ⟨h5, h6⟩ := syncCloudLoop_preserve s.localStore.contents
        s.cloudStore.contents
        (syncLocalLoop s.cloudStore.contents s.localStore.contents
          s.localStore s.cloudStore 0 0).1
        (syncLocalLoop s.cloudStore.contents s.localStore.contents
          s.localStore s.cloudStore 0 0).2.2.1
      exact ⟨h5.trans h1, h6.trans h2, h3, h4⟩
    · rw [performSync_fetchFail s now (Or.inr hc)]
      exact ⟨rfl, rfl, rfl, rfl⟩
  · rw [performSync_fetchFail s now (Or.inl hl)]
    exact ⟨rfl, rfl, rfl, rfl⟩

/-- A pass preserves well-formedness of both stores. -/
theorem performSync_WFb (s : SyncService) (now : Nat)
    (hwl : s.localStore.WFb = true) (hwc : s.cloudStore.WFb = true) :
    (performSync s now).service.localStore.WFb = true ∧
    (performSync s now).service.cloudStore.WFb = true := by
  by_cases hl : s.localStore.getAllErr = none
  · by_cases hc : s.cloudStore.getAllErr = none
    · rw [performSync_eq s now hl hc]
      dsimp only
      obtain ⟨h1, h2⟩ := syncLocalLoop_WFb s.cloudStore.contents
        s.localStore.contents s.localStore s.cloudStore 0 0 hwl hwc
      exact ⟨syncCloudLoop_WFb _ _ _ _ h1, h2⟩
    · rw [performSync_fetchFail s now (Or.inr hc)]
      exact ⟨hwl, hwc⟩
  · rw [performSync_fetchFail s now (Or.inl hl)]
    exact ⟨hwl, hwc⟩

/-- Last-write-wins at one key, as seen from the local replica: the
record with the strictly later timestamp, the local one on a tie. -/
def mergeLocal : Option Entry → Option Entry → Option Entry
  | some le, some ce =>
      if le.LastModifiedTimestamp < ce.LastModifiedTimestamp then some ce else some le
  | some le, none => some le
  | none, some ce => some ce
  | none, none => none

/-- Last-write-wins at one key, as seen from the cloud replica: the
record with the strictly later timestamp, the cloud one on a tie. -/
def mergeCloud : Option Entry → Option Entry → Option Entry
  | some le, some ce =>
      if ce.LastModifiedTimestamp < le.LastModifiedTimestamp then some le else some ce
  | some le, none => some le
  | none, some ce => some ce
  | none, none => none

/-- When no upsert fails, one pass leaves each store holding, at every
key, exactly the last-write-wins merge of the two initial snapshots. -/
theorem performSync_lookup_noFail (s : SyncService) (now : Nat) (id : String)
    (hl : s.localStore.getAllErr = none) (hc : s.cloudStore.getAllErr = none)
    (hsl : ∀ e, s.localStore.saveErr e = none)
    (hsc : ∀ e, s.cloudStore.saveErr e = none)
    (hwl : s.localStore.WFb = true) (hwc : s.cloudStore.WFb = true) :
    lookupEntry (performSync s now).service.localStore.contents id =
      mergeLocal (lookupEntry s.localStore.contents id)
        (lookupEntry s.cloudStore.contents id) ∧
    lookupEntry (performSync s now).service.cloudStore.contents id =
      mergeCloud (lookupEntry s.localStore.contents id)
        (lookupEntry s.cloudStore.contents id) := by
  obtain ⟨hnl, hkl⟩ : nodupKeys s.localStore.contents = true ∧
      keysMatch s.localStore.contents = true := by
    simpa [Store.WFb, Bool.and_eq_true] using hwl
  obtain ⟨hnc, hkc⟩ : nodupKeys s.cloudStore.contents = true ∧
      keysMatch s.cloudStore.contents = true := by
    simpa [Store.WFb, Bool.and_eq_true] using hwc
  have hpre := syncLocalLoop_preserve s.cloudStore.contents s.localStore.contents
    s.localStore s.cloudStore 0 0
  rw [performSync_eq s now hl hc]
  dsimp only
  constructor
  · rw [syncCloudLoop_local_lookup _ _ _ _ _ hnc hkc]
    cases hC : lookupEntry s.cloudStore.contents id with
    | none =>
        rw [loop2LocalView_none _ _ _ _ hC,
          syncLocalLoop_local_lookup _ hkc _ _ _ _ _ _ hnl]
        cases hL : lookupEntry s.localStore.contents id with
        | none =>
            rw [loop1LocalView_none _ _ _ _ hL, hL]
            rfl
        | some le =>
            rw [loop1LocalView_some _ _ _ _ _ hL, hC]
            exact hL
    | some ce =>
        rw [loop2LocalView_some _ _ _ _ _ hC]
        cases hL : lookupEntry s.localStore.contents id with
        | none =>
            have hck : ¬containsKey s.localStore.contents id = true := by
              rw [containsKey_eq_isSome_lookupEntry, hL]
              simp
            rw [if_neg hck, hpre.1, hsl ce, if_pos rfl]
            rfl
        | some le =>
            have hck : containsKey s.localStore.contents id = true := by
              rw [containsKey_eq_isSome_lookupEntry, hL]
              rfl
            rw [if_pos hck, syncLocalLoop_local_lookup _ hkc _ _ _ _ _ _ hnl,
              loop1LocalView_some _ _ _ _ _ hL, hC]
            dsimp only [mergeLocal]
            by_cases h1 : ce.LastModifiedTimestamp < le.LastModifiedTimestamp
            · rw [if_pos h1, if_neg (Nat.lt_asymm h1), hL]
            · by_cases h2 : le.LastModifiedTimestamp < ce.LastModifiedTimestamp
              · rw [if_neg h1, if_pos h2, if_pos h2, hsl ce, if_pos rfl]
              · rw [if_neg h1, if_neg h2, if_neg h2, hL]
  · rw [syncLocalLoop_cloud_lookup _ _ _ _ _ _ _ hnl hkl]
    cases hL : lookupEntry s.localStore.contents id with
    | none =>
        rw [loop1CloudView_none _ _ _ _ hL]
        cases hC : lookupEntry s.cloudStore.contents id with
        | none => rfl
        | some ce => rfl
    | some le =>
        rw [loop1CloudView_some _ _ _ _ _ hL]
        cases hC : lookupEntry s.cloudStore.contents id with
        | none =>
            dsimp only [mergeCloud]
            rw [hsc le, if_pos rfl]
        | some ce =>
            dsimp only [mergeCloud]
            by_cases h1 : ce.LastModifiedTimestamp < le.LastModifiedTimestamp
            · rw [if_pos h1, if_pos h1, hsc le, if_pos rfl]
            · rw [if_neg h1, if_neg h1]

/-- When every element of the local snapshot has a cloud twin with an
equal timestamp, the first loop writes nothing and counts nothing. -/
theorem syncLocalLoop_noop (cloudSnap : List (String × Entry)) :
    ∀ (rest : List (String × Entry)) (lo cl : Store) (s c : Nat),
      (∀ p ∈ rest, ∃ ce, lookupEntry cloudSnap p.1 = some ce ∧
        ce.LastModifiedTimestamp = p.2.LastModifiedTimestamp) →
      syncLocalLoop cloudSnap rest lo cl s c = (lo, cl, s, c) := by
  intro rest
  induction rest with
  | nil => intro lo cl s c _; rfl
  | cons p rest ih =>
      obtain ⟨hid, le⟩ := p
      intro lo cl s c h
      obtain ⟨ce, hce, ht⟩ := h (hid, le) (List.mem_cons_self _ _)
      simp only [syncLocalLoop]
      rw [hce]
      dsimp only at ht ⊢
      rw [if_neg (by rw [ht]; exact Nat.lt_irrefl _),
        if_neg (by rw [ht]; exact Nat.lt_irrefl _)]
      exact ih lo cl s c (fun q hq => h q (List.mem_cons_of_mem _ hq))

/-- When every element of the cloud snapshot already has its key in the
local snapshot, the second loop writes nothing and counts nothing. -/
theorem syncCloudLoop_noop (localSnap : List (String × Entry)) :
    ∀ (rest : List (String × Entry)) (lo : Store) (s : Nat),
      (∀ p ∈ rest, containsKey localSnap p.1 = true) →
      syncCloudLoop localSnap rest lo s = (lo, s) := by
  intro rest
  induction rest with
  | nil => intro lo s _; rfl
  | cons p rest ih =>
      obtain ⟨hid, ce⟩ := p
      intro lo s h
      simp only [syncCloudLoop]
      rw [if_pos (h (hid, ce) (List.mem_cons_self _ _))]
      exact ih lo s (fun q hq => h q (List.mem_cons_of_mem _ hq))

/-- After one pass with no failures, every local record has a cloud twin
with an equal timestamp, and every cloud key is present locally.  This is
exactly what makes a second pass a no-op. -/
theorem performSync_agree (s : SyncService) (now : Nat)
    (hl : s.localStore.getAllErr = none) (hc : s.cloudStore.getAllErr = none)
    (hsl : ∀ e, s.localStore.saveErr e = none)
    (hsc : ∀ e, s.cloudStore.saveErr e = none)
    (hwl : s.localStore.WFb = true) (hwc : s.cloudStore.WFb = true) :
    (∀ p ∈ (performSync s now).service.localStore.contents,
        ∃ ce, lookupEntry (performSync s now).service.cloudStore.contents p.1 =
            some ce ∧
          ce.LastModifiedTimestamp = p.2.LastModifiedTimestamp) ∧
    (∀ p ∈ (performSync s now).service.cloudStore.contents,
        containsKey (performSync s now).service.localStore.contents p.1 = true) := by
  obtain ⟨hw1, hw2⟩ := performSync_WFb s now hwl hwc
  obtain ⟨hn1, hk1⟩ : nodupKeys (performSync s now).service.localStore.contents = true ∧
      keysMatch (performSync s now).service.localStore.contents = true := by
    simpa [Store.WFb, Bool.and_eq_true] using hw1
  obtain ⟨hn2, hk2⟩ : nodupKeys (performSync s now).service.cloudStore.contents = true ∧
      keysMatch (performSync s now).service.cloudStore.contents = true := by
    simpa [Store.WFb, Bool.and_eq_true] using hw2
  constructor
  · intro p hp
    have hlk := lookupEntry_of_mem hn1 hp
    obtain ⟨hml, hmc⟩ := performSync_lookup_noFail s now p.1 hl hc hsl hsc hwl hwc
    rw [hml] at hlk
    rw [hmc]
    cases hL : lookupEntry s.localStore.contents p.1 with
    | none =>
        rw [hL] at hlk
        cases hC : lookupEntry s.cloudStore.contents p.1 with
        | none => rw [hC] at hlk; cases hlk
        | some ce =>
            rw [hC] at hlk
            have hce : ce = p.2 := Option.some.inj hlk
            exact ⟨ce, rfl, by rw [hce]⟩
    | some le =>
        rw [hL] at hlk
        cases hC : lookupEntry s.cloudStore.contents p.1 with
        | none =>
            rw [hC] at hlk
            have hle : le = p.2 := Option.some.inj hlk
            exact ⟨le, rfl, by rw [hle]⟩
        | some ce =>
            rw [hC] at hlk
            dsimp only [mergeLocal] at hlk
            dsimp only [mergeCloud]
            by_cases h2 : le.LastModifiedTimestamp < ce.LastModifiedTimestamp
            · rw [if_pos h2] at hlk
              have hce : ce = p.2 := Option.some.inj hlk
              exact ⟨ce, by rw [if_neg (Nat.lt_asymm h2)], by rw [hce]⟩
            · rw [if_neg h2] at hlk
              have hle : le = p.2 := Option.some.inj hlk
              by_cases h1 : ce.LastModifiedTimestamp < le.LastModifiedTimestamp
              · exact ⟨le, by rw [if_pos h1], by rw [hle]⟩
              · have heq : ce.LastModifiedTimestamp = le.LastModifiedTimestamp := by
                  omega
                exact ⟨ce, by rw [if_neg h1], by rw [heq, hle]⟩
  · intro p hp
    have hlk := lookupEntry_of_mem hn2 hp
    obtain ⟨hml, hmc⟩ := performSync_lookup_noFail s now p.1 hl hc hsl hsc hwl hwc
    rw [hmc] at hlk
    rw [containsKey_eq_isSome_lookupEntry, hml]
    cases hL : lookupEntry s.localStore.contents p.1 with
    | none =>
        rw [hL] at hlk
        cases hC : lookupEntry s.cloudStore.contents p.1 with
        | none => rw [hC] at hlk; cases hlk
        | some ce => rfl
    | some le =>
        cases hC : lookupEntry s.cloudStore.contents p.1 with
        | none => rfl
        | some ce =>
            dsimp only [mergeLocal]
            by_cases h2 : le.LastModifiedTimestamp < ce.LastModifiedTimestamp
            · rw [if_pos h2]
              rfl
            · rw [if_neg h2]
              rfl

/-- Trace of the local store after one pass with successful fetches. -/
theorem performSync_local_ops (s : SyncService) (now : Nat)
    (hl : s.localStore.getAllErr = none) (hc : s.cloudStore.getAllErr = none) :
    (performSync s now).service.localStore.ops =
      s.localStore.ops ++
        (s.localStore.contents.filterMap
          (loop1LocalOp s.cloudStore.contents s.localStore.saveErr) ++
         s.cloudStore.contents.filterMap
          (loop2LocalOp s.localStore.contents s.localStore.saveErr)) := by
  rw [performSync_eq s now hl hc]
  dsimp only
  rw [syncCloudLoop_local_ops, syncLocalLoop_local_ops,
    (syncLocalLoop_preserve s.cloudStore.contents s.localStore.contents
      s.localStore s.cloudStore 0 0).1, List.append_assoc]

/-- Trace of the cloud store after one pass with successful fetches. -/
theorem performSync_cloud_ops (s : SyncService) (now : Nat)
    (hl : s.localStore.getAllErr = none) (hc : s.cloudStore.getAllErr = none) :
    (performSync s now).service.cloudStore.ops =
      s.cloudStore.ops ++
        s.localStore.contents.filterMap
          (loop1CloudOp s.cloudStore.contents s.cloudStore.saveErr) := by
  rw [performSync_eq s now hl hc]
  dsimp only
  rw [syncLocalLoop_cloud_ops]

/-- Every call in the local trace after a pass is either from before the
pass, a pull of a strictly newer cloud record, or a pull of a cloud-only
record. -/
theorem performSync_local_op_cases (s : SyncService) (now : Nat) (op : StoreOp)
    (hl : s.localStore.getAllErr = none) (hc : s.cloudStore.getAllErr = none)
    (hop : op ∈ (performSync s now).service.localStore.ops) :
    op ∈ s.localStore.ops ∨
    (∃ p ∈ s.localStore.contents,
        loop1LocalOp s.cloudStore.contents s.localStore.saveErr p = some op) ∨
    (∃ p ∈ s.cloudStore.contents,
        loop2LocalOp s.localStore.contents s.localStore.saveErr p = some op) := by
  rw [performSync_local_ops s now hl hc] at hop
  rcases List.mem_append.mp hop with h | h
  · exact .inl h
  · rcases List.mem_append.mp h with h | h
    · exact .inr (.inl (by simpa using List.mem_filterMap.mp h))
    · exact .inr (.inr (by simpa using List.mem_filterMap.mp h))

/-- Every call in the cloud trace after a pass is either from before the
pass, or a push of a local record that is cloud-absent or strictly
newer. -/
theorem performSync_cloud_op_cases (s : SyncService) (now : Nat) (op : StoreOp)
    (hl : s.localStore.getAllErr = none) (hc : s.cloudStore.getAllErr = none)
    (hop : op ∈ (performSync s now).service.cloudStore.ops) :
    op ∈ s.cloudStore.ops ∨
    (∃ p ∈ s.localStore.contents,
        loop1CloudOp s.cloudStore.contents s.cloudStore.saveErr p = some op) := by
  rw [performSync_cloud_ops s now hl hc] at hop
  rcases List.mem_append.mp hop with h | h
  · exact .inl h
  · exact .inr (by simpa using List.mem_filterMap.mp h)

theorem loop1LocalOp_shape {cloudSnap : List (String × Entry)}
    {saveErr : Entry → Option String} {p : String × Entry} {op : StoreOp}
    (h : loop1LocalOp cloudSnap saveErr p = some op) :
    ∃ ce, lookupEntry cloudSnap p.1 = some ce ∧
      p.2.LastModifiedTimestamp < ce.LastModifiedTimestamp ∧
      op = StoreOp.save ce (saveErr ce).isNone := by
  unfold loop1LocalOp at h
  cases hce : lookupEntry cloudSnap p.1 with
  | none => rw [hce] at h; cases h
  | some ce =>
      rw [hce] at h
      dsimp only at h
      by_cases hlt : p.2.LastModifiedTimestamp < ce.LastModifiedTimestamp
      · rw [if_pos hlt] at h
        exact ⟨ce, rfl, hlt, (Option.some.inj h).symm⟩
      · rw [if_neg hlt] at h
        cases h

theorem loop1CloudOp_shape {cloudSnap : List (String × Entry)}
    {saveErr : Entry → Option String} {p : String × Entry} {op : StoreOp}
    (h : loop1CloudOp cloudSnap saveErr p = some op) :
    op = StoreOp.save p.2 (saveErr p.2).isNone ∧
      (lookupEntry cloudSnap p.1 = none ∨
       ∃ ce, lookupEntry cloudSnap p.1 = some ce ∧
         ce.LastModifiedTimestamp < p.2.LastModifiedTimestamp) := by
  unfold loop1CloudOp at h
  cases hce : lookupEntry cloudSnap p.1 with
  | none =>
      rw [hce] at h
      exact ⟨(Option.some.inj h).symm, .inl rfl⟩
  | some ce =>
      rw [hce] at h
      dsimp only at h
      by_cases hlt : ce.LastModifiedTimestamp < p.2.LastModifiedTimestamp
      · rw [if_pos hlt] at h
        exact ⟨(Option.some.inj h).symm, .inr ⟨ce, rfl, hlt⟩⟩
      · rw [if_neg hlt] at h
        cases h

theorem loop2LocalOp_shape {localSnap : List (String × Entry)}
    {saveErr : Entry → Option String} {p : String × Entry} {op : StoreOp}
    (h : loop2LocalOp localSnap saveErr p = some op) :
    op = StoreOp.save p.2 (saveErr p.2).isNone ∧
      containsKey localSnap p.1 = false := by
  unfold loop2LocalOp at h
  by_cases hk : containsKey localSnap p.1
  · rw [if_pos hk] at h
    cases h
  · rw [if_neg hk] at h
    exact ⟨(Option.some.inj h).symm, Bool.not_eq_true _ ▸ Bool.of_not_eq_true hk⟩

/-! ### Claims -/

/-- C2: if either GetAll fails during a pass, the pass aborts before any
upsert is attempted: both stores, their traces included, are unchanged,
no counts are produced, and `lastSync` keeps its previous value. -/
theorem fetch_failure_aborts_pass (s : SyncService) (now : Nat)
    (h : ¬s.localStore.getAllErr = none ∨ ¬s.cloudStore.getAllErr = none) :
    performSync s now = ⟨s, none⟩ ∧
    (performSync s now).service.localStore.ops = s.localStore.ops ∧
    (performSync s now).service.cloudStore.ops = s.cloudStore.ops ∧
    (performSync s now).service.lastSync = s.lastSync := by
  have he := performSync_fetchFail s now h
  exact ⟨he, by rw [he], by rw [he], by rw [he]⟩

/-- Witness for C2 at a concrete service whose local fetch fails. -/
theorem fetch_failure_aborts_pass_witness :
    performSync
        ⟨⟨[], some "broken", fun _ => none, fun _ => none, []⟩,
         ⟨[], none, fun _ => none, fun _ => none, []⟩, 4⟩ 9 =
      ⟨⟨⟨[], some "broken", fun _ => none, fun _ => none, []⟩,
        ⟨[], none, fun _ => none, fun _ => none, []⟩, 4⟩, none⟩ :=
  (fetch_failure_aborts_pass
    ⟨⟨[], some "broken", fun _ => none, fun _ => none, []⟩,
     ⟨[], none, fun _ => none, fun _ => none, []⟩, 4⟩ 9
    (Or.inl (by simp))).1

/-- C4: once both fetches succeed, the pass always records `now` as the
last sync time and produces counts, no matter which individual upserts
fail; and a record whose own winning upsert succeeds is reconciled
regardless of failures on any other id. -/
theorem pass_completes_despite_upsert_failures (s : SyncService) (now : Nat)
    (i : String)
    (hl : s.localStore.getAllErr = none) (hc : s.cloudStore.getAllErr = none)
    (hwl : s.localStore.WFb = true) (hwc : s.cloudStore.WFb = true) :
    (performSync s now).service.lastSync = now ∧
    (performSync s now).counts.isSome = true ∧
    (∀ le, lookupEntry s.localStore.contents i = some le →
      lookupEntry s.cloudStore.contents i = none →
      s.cloudStore.saveErr le = none →
      lookupEntry (performSync s now).service.cloudStore.contents i = some le) ∧
    (∀ le ce, lookupEntry s.localStore.contents i = some le →
      lookupEntry s.cloudStore.contents i = some ce →
      ce.LastModifiedTimestamp < le.LastModifiedTimestamp →
      s.cloudStore.saveErr le = none →
      lookupEntry (performSync s now).service.cloudStore.contents i = some le) ∧
    (∀ ce, lookupEntry s.localStore.contents i = none →
      lookupEntry s.cloudStore.contents i = some ce →
      s.localStore.saveErr ce = none →
      lookupEntry (performSync s now).service.localStore.contents i = some ce) := by
  obtain ⟨hnl, hkl⟩ : nodupKeys s.localStore.contents = true ∧
      keysMatch s.localStore.contents = true := by
    simpa [Store.WFb, Bool.and_eq_true] using hwl
  obtain ⟨hnc, hkc⟩ : nodupKeys s.cloudStore.contents = true ∧
      keysMatch s.cloudStore.contents = true := by
    simpa [Store.WFb, Bool.and_eq_true] using hwc
  refine ⟨by rw [performSync_eq s now hl hc], by rw [performSync_eq s now hl hc]; rfl,
    ?_, ?_, ?_⟩
  · intro le hL hC hsave
    rw [performSync_eq s now hl hc]
    dsimp only
    rw [syncLocalLoop_cloud_lookup _ _ _ _ _ _ _ hnl hkl,
      loop1CloudView_some _ _ _ _ _ hL, hC]
    dsimp only
    rw [hsave, if_pos rfl]
  · intro le ce hL hC hlt hsave
    rw [performSync_eq s now hl hc]
    dsimp only
    rw [syncLocalLoop_cloud_lookup _ _ _ _ _ _ _ hnl hkl,
      loop1CloudView_some _ _ _ _ _ hL, hC]
    dsimp only
    rw [if_pos hlt, hsave, if_pos rfl]
  · intro ce hL hC hsave
    rw [performSync_eq s now hl hc]
    dsimp only
    rw [syncCloudLoop_local_lookup _ _ _ _ _ hnc hkc,
      loop2LocalView_some _ _ _ _ _ hC]
    have hck : ¬containsKey s.localStore.contents i = true := by
      rw [containsKey_eq_isSome_lookupEntry, hL]
      simp
    rw [if_neg hck,
      (syncLocalLoop_preserve s.cloudStore.contents s.localStore.contents
        s.localStore s.cloudStore 0 0).1, hsave, if_pos rfl]

/-- Witness for C4: the cloud store rejects the entry with ID 5, yet the
pass still pushes the entry with ID 6 and records the sync time. -/
theorem pass_completes_despite_upsert_failures_witness :
    (performSync
        ⟨⟨[("5", ⟨"5", "a", [], 0, 0, 1, 0, ""⟩), ("6", ⟨"6", "b", [], 0, 0, 1, 0, ""⟩)],
          none, fun _ => none, fun _ => none, []⟩,
         ⟨[], none, fun e => if e.ID = "5" then some "rejected" else none,
          fun _ => none, []⟩, 0⟩ 9).service.lastSync = 9 ∧
    lookupEntry (performSync
        ⟨⟨[("5", ⟨"5", "a", [], 0, 0, 1, 0, ""⟩), ("6", ⟨"6", "b", [], 0, 0, 1, 0, ""⟩)],
          none, fun _ => none, fun _ => none, []⟩,
         ⟨[], none, fun e => if e.ID = "5" then some "rejected" else none,
          fun _ => none, []⟩, 0⟩ 9).service.cloudStore.contents "6" =
      some ⟨"6", "b", [], 0, 0, 1, 0, ""⟩ := by
  have h := pass_completes_despite_upsert_failures
    ⟨⟨[("5", ⟨"5", "a", [], 0, 0, 1, 0, ""⟩), ("6", ⟨"6", "b", [], 0, 0, 1, 0, ""⟩)],
      none, fun _ => none, fun _ => none, []⟩,
     ⟨[], none, fun e => if e.ID = "5" then some "rejected" else none,
      fun _ => none, []⟩, 0⟩ 9 "6" rfl rfl (by decide) (by decide)
  exact ⟨h.1, h.2.2.1 ⟨"6", "b", [], 0, 0, 1, 0, ""⟩ (by decide) rfl (by decide)⟩

/-- C6: `Notes.SaveEntry` stamps the record with the current instant,
writes exactly the stamped record into the in-memory map whatever the
store answers, forwards exactly the stamped record to the store upsert,
and returns the store error unmodified. -/
theorem save_stamps_and_forwards (st : Store) (es : List (String × Entry))
    (entry : Entry) (now : Nat) :
    Notes.SaveEntry ⟨st, some es⟩ entry now =
      some (⟨(st.SaveEntry { entry with LastModifiedTimestamp := now }).1,
             some (upsertEntry es { entry with LastModifiedTimestamp := now })⟩,
            st.saveErr { entry with LastModifiedTimestamp := now }) ∧
    (st.SaveEntry { entry with LastModifiedTimestamp := now }).1.ops =
      st.ops ++ [StoreOp.save { entry with LastModifiedTimestamp := now }
        (st.saveErr { entry with LastModifiedTimestamp := now }).isNone] ∧
    lookupEntry (upsertEntry es { entry with LastModifiedTimestamp := now })
        entry.ID = some { entry with LastModifiedTimestamp := now } := by
  refine ⟨?_, SaveEntry_ops st _, ?_⟩
  · unfold Notes.SaveEntry
    dsimp only
    rw [SaveEntry_snd]
  · rw [lookupEntry_upsertEntry]
    simp

/-- C10: on a `Notes` value fresh from `NewNotes` the `Entries` map is
still nil, so `SaveEntry` faults (Go panics on assignment into a nil
map), while after a successful `LoadAll` it cannot fault; `Delete` on the
same fresh value does not fault and still forwards the delete to the
store. -/
theorem save_before_load_faults (st : Store) (e : Entry) (now : Nat)
    (id : String) :
    Notes.SaveEntry (NewNotes st) e now = none ∧
    (st.getAllErr = none →
      ∀ e2 now2, ¬Notes.SaveEntry ((NewNotes st).LoadAll).1 e2 now2 = none) ∧
    Notes.Delete (NewNotes st) id =
      (⟨(st.DeleteEntry id).1, none⟩, (st.DeleteEntry id).2) := by
  refine ⟨rfl, ?_, rfl⟩
  intro hget e2 now2
  unfold Notes.LoadAll Store.GetAll NewNotes
  dsimp only
  rw [hget]
  intro hcon
  cases hcon

/-- Witness for C10: after a successful load, saving cannot fault. -/
theorem save_before_load_faults_witness :
    ¬Notes.SaveEntry
        ((NewNotes ⟨[], none, fun _ => none, fun _ => none, []⟩).LoadAll).1
        ⟨"7", "t", [], 0, 0, 0, 0, "b"⟩ 3 = none :=
  (save_before_load_faults ⟨[], none, fun _ => none, fun _ => none, []⟩
    ⟨"7", "t", [], 0, 0, 0, 0, "b"⟩ 3 "z").2.1 rfl
    ⟨"7", "t", [], 0, 0, 0, 0, "b"⟩ 3

/-- C1: for an id present in both snapshots, one pass upserts the whole
record with the strictly later timestamp into the other store, issues no
write for that id against the winning store, and on an exact timestamp
tie issues no write for that id against either store. -/
theorem lww_resolves_by_timestamp (s : SyncService) (now : Nat) (i : String)
    (le ce : Entry)
    (hl : s.localStore.getAllErr = none) (hc : s.cloudStore.getAllErr = none)
    (hwl : s.localStore.WFb = true) (hwc : s.cloudStore.WFb = true)
    (hL : lookupEntry s.localStore.contents i = some le)
    (hC : lookupEntry s.cloudStore.contents i = some ce) :
    (ce.LastModifiedTimestamp < le.LastModifiedTimestamp →
      (s.cloudStore.saveErr le = none →
        lookupEntry (performSync s now).service.cloudStore.contents i = some le) ∧
      (∀ op ∈ (performSync s now).service.localStore.ops,
        op.targetId = i → op ∈ s.localStore.ops)) ∧
    (le.LastModifiedTimestamp < ce.LastModifiedTimestamp →
      (s.localStore.saveErr ce = none →
        lookupEntry (performSync s now).service.localStore.contents i = some ce) ∧
      (∀ op ∈ (performSync s now).service.cloudStore.ops,
        op.targetId = i → op ∈ s.cloudStore.ops)) ∧
    (le.LastModifiedTimestamp = ce.LastModifiedTimestamp →
      (∀ op ∈ (performSync s now).service.localStore.ops,
        op.targetId = i → op ∈ s.localStore.ops) ∧
      (∀ op ∈ (performSync s now).service.cloudStore.ops,
        op.targetId = i → op ∈ s.cloudStore.ops)) := by
  obtain ⟨hnl, hkl⟩ : nodupKeys s.localStore.contents = true ∧
      keysMatch s.localStore.contents = true := by
    simpa [Store.WFb, Bool.and_eq_true] using hwl
  obtain ⟨hnc, hkc⟩ : nodupKeys s.cloudStore.contents = true ∧
      keysMatch s.cloudStore.contents = true := by
    simpa [Store.WFb, Bool.and_eq_true] using hwc
  have hlocal : ¬le.LastModifiedTimestamp < ce.LastModifiedTimestamp →
      ∀ op ∈ (performSync s now).service.localStore.ops,
        op.targetId = i → op ∈ s.localStore.ops := by
    intro hnlt op hop hid
    rcases performSync_local_op_cases s now op hl hc hop with h | ⟨p, hp, hsh⟩ | ⟨p, hp, hsh⟩
    · exact h
    · exfalso
      obtain ⟨ce2, hce2, hlt2, hshape⟩ := loop1LocalOp_shape hsh
      have hid2 : ce2.ID = p.1 := lookupEntry_keysMatch hkc hce2
      have htid : op.targetId = ce2.ID := by rw [hshape]; rfl
      have hp1 : p.1 = i := by rw [← hid2, ← htid, hid]
      have hlp : lookupEntry s.localStore.contents p.1 = some p.2 :=
        lookupEntry_of_mem hnl hp
      rw [hp1, hL] at hlp
      rw [hp1, hC] at hce2
      have hle : le = p.2 := Option.some.inj hlp
      have hce : ce = ce2 := Option.some.inj hce2
      rw [← hle, ← hce] at hlt2
      exact hnlt hlt2
    · exfalso
      obtain ⟨hshape, hck⟩ := loop2LocalOp_shape hsh
      have hlp2 : lookupEntry s.cloudStore.contents p.1 = some p.2 :=
        lookupEntry_of_mem hnc hp
      have hid2 : p.2.ID = p.1 := lookupEntry_keysMatch hkc hlp2
      have htid : op.targetId = p.2.ID := by rw [hshape]; rfl
      have hp1 : p.1 = i := by rw [← hid2, ← htid, hid]
      rw [hp1, containsKey_eq_isSome_lookupEntry, hL] at hck
      cases hck
  have hcloud : ¬ce.LastModifiedTimestamp < le.LastModifiedTimestamp →
      ∀ op ∈ (performSync s now).service.cloudStore.ops,
        op.targetId = i → op ∈ s.cloudStore.ops := by
    intro hngt op hop hid
    rcases performSync_cloud_op_cases s now op hl hc hop with h | ⟨p, hp, hsh⟩
    · exact h
    · exfalso
      obtain ⟨hshape, hcond⟩ := loop1CloudOp_shape hsh
      have hlp : lookupEntry s.localStore.contents p.1 = some p.2 :=
        lookupEntry_of_mem hnl hp
      have hid2 : p.2.ID = p.1 := lookupEntry_keysMatch hkl hlp
      have htid : op.targetId = p.2.ID := by rw [hshape]; rfl
      have hp1 : p.1 = i := by rw [← hid2, ← htid, hid]
      rw [hp1, hL] at hlp
      have hle : le = p.2 := Option.some.inj hlp
      rcases hcond with hnone | ⟨ce2, hce2, hlt2⟩
      · rw [hp1, hC] at hnone
        cases hnone
      · rw [hp1, hC] at hce2
        have hce : ce = ce2 := Option.some.inj hce2
        rw [← hce, ← hle] at hlt2
        exact hngt hlt2
  refine ⟨fun h1 => ⟨fun hsave => ?_, hlocal (Nat.lt_asymm h1)⟩,
    fun h2 => ⟨fun hsave => ?_, hcloud (Nat.lt_asymm h2)⟩,
    fun ht => ⟨hlocal (by rw [ht]; exact Nat.lt_irrefl _),
      hcloud (by rw [ht]; exact Nat.lt_irrefl _)⟩⟩
  · rw [performSync_eq s now hl hc]
    dsimp only
    rw [syncLocalLoop_cloud_lookup _ _ _ _ _ _ _ hnl hkl,
      loop1CloudView_some _ _ _ _ _ hL, hC]
    dsimp only
    rw [if_pos h1, hsave, if_pos rfl]
  · rw [performSync_eq s now hl hc]
    dsimp only
    rw [syncCloudLoop_local_lookup _ _ _ _ _ hnc hkc,
      loop2LocalView_some _ _ _ _ _ hC]
    have hck : containsKey s.localStore.contents i = true := by
      rw [containsKey_eq_isSome_lookupEntry, hL]
      rfl
    rw [if_pos hck, syncLocalLoop_local_lookup _ hkc _ _ _ _ _ _ hnl,
      loop1LocalView_some _ _ _ _ _ hL, hC]
    dsimp only
    rw [if_neg (Nat.lt_asymm h2), if_pos h2, hsave, if_pos rfl]

/-- Witness for C1: local id 3 has timestamp 2, cloud id 3 has timestamp
1, so the pass replaces the cloud record and writes nothing locally. -/
theorem lww_resolves_by_timestamp_witness :
    lookupEntry (performSync
        ⟨⟨[("3", ⟨"3", "p", [], 0, 0, 2, 0, ""⟩)], none, fun _ => none,
          fun _ => none, []⟩,
         ⟨[("3", ⟨"3", "q", [], 0, 0, 1, 0, ""⟩)], none, fun _ => none,
          fun _ => none, []⟩, 0⟩ 9).service.cloudStore.contents "3" =
      some ⟨"3", "p", [], 0, 0, 2, 0, ""⟩ :=
  ((lww_resolves_by_timestamp
    ⟨⟨[("3", ⟨"3", "p", [], 0, 0, 2, 0, ""⟩)], none, fun _ => none,
      fun _ => none, []⟩,
     ⟨[("3", ⟨"3", "q", [], 0, 0, 1, 0, ""⟩)], none, fun _ => none,
      fun _ => none, []⟩, 0⟩ 9 "3"
    ⟨"3", "p", [], 0, 0, 2, 0, ""⟩ ⟨"3", "q", [], 0, 0, 1, 0, ""⟩
    rfl rfl (by decide) (by decide) (by decide) (by decide)).1
    (by decide)).1 rfl

/-- C3: a record present in exactly one store is copied to the other
store verbatim, every field and in particular `LastModifiedTimestamp`
unchanged; more generally every record the pass ever hands to an upsert
is taken verbatim from one of the two initial snapshots, so the
reconciler never advances a timestamp itself. -/
theorem push_pull_pass_through (s : SyncService) (now : Nat) (i j : String)
    (le ce : Entry)
    (hl : s.localStore.getAllErr = none) (hc : s.cloudStore.getAllErr = none)
    (hwl : s.localStore.WFb = true) (hwc : s.cloudStore.WFb = true) :
    (lookupEntry s.localStore.contents i = some le →
      lookupEntry s.cloudStore.contents i = none →
      s.cloudStore.saveErr le = none →
      lookupEntry (performSync s now).service.cloudStore.contents i = some le) ∧
    (lookupEntry s.localStore.contents j = none →
      lookupEntry s.cloudStore.contents j = some ce →
      s.localStore.saveErr ce = none →
      lookupEntry (performSync s now).service.localStore.contents j = some ce) ∧
    (∀ e b, StoreOp.save e b ∈ (performSync s now).service.localStore.ops →
      StoreOp.save e b ∈ s.localStore.ops ∨ (e.ID, e) ∈ s.cloudStore.contents) ∧
    (∀ e b, StoreOp.save e b ∈ (performSync s now).service.cloudStore.ops →
      StoreOp.save e b ∈ s.cloudStore.ops ∨ (e.ID, e) ∈ s.localStore.contents) := by
  obtain ⟨hnl, hkl⟩ : nodupKeys s.localStore.contents = true ∧
      keysMatch s.localStore.contents = true := by
    simpa [Store.WFb, Bool.and_eq_true] using hwl
  obtain ⟨hnc, hkc⟩ : nodupKeys s.cloudStore.contents = true ∧
      keysMatch s.cloudStore.contents = true := by
    simpa [Store.WFb, Bool.and_eq_true] using hwc
  refine ⟨?_, ?_, ?_, ?_⟩
  · intro hL hC hsave
    rw [performSync_eq s now hl hc]
    dsimp only
    rw [syncLocalLoop_cloud_lookup _ _ _ _ _ _ _ hnl hkl,
      loop1CloudView_some _ _ _ _ _ hL, hC]
    dsimp only
    rw [hsave, if_pos rfl]
  · intro hL hC hsave
    rw [performSync_eq s now hl hc]
    dsimp only
    rw [syncCloudLoop_local_lookup _ _ _ _ _ hnc hkc,
      loop2LocalView_some _ _ _ _ _ hC]
    have hck : ¬containsKey s.localStore.contents j = true := by
      rw [containsKey_eq_isSome_lookupEntry, hL]
      simp
    rw [if_neg hck,
      (syncLocalLoop_preserve s.cloudStore.contents s.localStore.contents
        s.localStore s.cloudStore 0 0).1, hsave, if_pos rfl]
  · intro e b hop
    rcases performSync_local_op_cases s now _ hl hc hop with h | ⟨p, hp, hsh⟩ | ⟨p, hp, hsh⟩
    · exact .inl h
    · obtain ⟨ce2, hce2, _, hshape⟩ := loop1LocalOp_shape hsh
      have he : e = ce2 := (StoreOp.save.inj hshape).1
      have hid2 : ce2.ID = p.1 := lookupEntry_keysMatch hkc hce2
      have hmem : (p.1, ce2) ∈ s.cloudStore.contents := mem_of_lookupEntry hce2
      right
      rw [he, hid2]
      exact hmem
    · obtain ⟨hshape, _⟩ := loop2LocalOp_shape hsh
      have he : e = p.2 := (StoreOp.save.inj hshape).1
      have hlp : lookupEntry s.cloudStore.contents p.1 = some p.2 :=
        lookupEntry_of_mem hnc hp
      have hid2 : p.2.ID = p.1 := lookupEntry_keysMatch hkc hlp
      right
      rw [he, hid2]
      exact (Prod.mk.eta ▸ hp : (p.1, p.2) ∈ s.cloudStore.contents)
  · intro e b hop
    rcases performSync_cloud_op_cases s now _ hl hc hop with h | ⟨p, hp, hsh⟩
    · exact .inl h
    · obtain ⟨hshape, _⟩ := loop1CloudOp_shape hsh
      have he : e = p.2 := (StoreOp.save.inj hshape).1
      have hlp : lookupEntry s.localStore.contents p.1 = some p.2 :=
        lookupEntry_of_mem hnl hp
      have hid2 : p.2.ID = p.1 := lookupEntry_keysMatch hkl hlp
      right
      rw [he, hid2]
      exact (Prod.mk.eta ▸ hp : (p.1, p.2) ∈ s.localStore.contents)

/-- Witness for C3: a local-only record and a cloud-only record are each
copied to the other store with timestamps 5 and 7 unchanged. -/
theorem push_pull_pass_through_witness :
    lookupEntry (performSync
        ⟨⟨[("1", ⟨"1", "only-local", [], 0, 0, 5, 0, ""⟩)], none, fun _ => none,
          fun _ => none, []⟩,
         ⟨[("2", ⟨"2", "only-cloud", [], 0, 0, 7, 0, ""⟩)], none, fun _ => none,
          fun _ => none, []⟩, 0⟩ 9).service.cloudStore.contents "1" =
      some ⟨"1", "only-local", [], 0, 0, 5, 0, ""⟩ ∧
    lookupEntry (performSync
        ⟨⟨[("1", ⟨"1", "only-local", [], 0, 0, 5, 0, ""⟩)], none, fun _ => none,
          fun _ => none, []⟩,
         ⟨[("2", ⟨"2", "only-cloud", [], 0, 0, 7, 0, ""⟩)], none, fun _ => none,
          fun _ => none, []⟩, 0⟩ 9).service.localStore.contents "2" =
      some ⟨"2", "only-cloud", [], 0, 0, 7, 0, ""⟩ := by
  have h := push_pull_pass_through
    ⟨⟨[("1", ⟨"1", "only-local", [], 0, 0, 5, 0, ""⟩)], none, fun _ => none,
      fun _ => none, []⟩,
     ⟨[("2", ⟨"2", "only-cloud", [], 0, 0, 7, 0, ""⟩)], none, fun _ => none,
      fun _ => none, []⟩, 0⟩ 9 "1" "2"
    ⟨"1", "only-local", [], 0, 0, 5, 0, ""⟩ ⟨"2", "only-cloud", [], 0, 0, 7, 0, ""⟩
    rfl rfl (by decide) (by decide)
  exact ⟨h.1 (by decide) (by decide) rfl, h.2.1 (by decide) (by decide) rfl⟩

/-- C9 counterexample: both replicas hold id x with the same timestamp
but different contents; after the pass the cloud (secondary) store still
holds its own version, not the local (primary) one. -/
theorem tie_drops_nothing_counterexample :
    lookupEntry (performSync
        ⟨⟨[("x", ⟨"x", "primary version", [], 0, 0, 4, 0, ""⟩)], none,
          fun _ => none, fun _ => none, []⟩,
         ⟨[("x", ⟨"x", "secondary version", [], 0, 0, 4, 0, ""⟩)], none,
          fun _ => none, fun _ => none, []⟩, 0⟩ 9).service.cloudStore.contents
        "x" = some ⟨"x", "secondary version", [], 0, 0, 4, 0, ""⟩ ∧
    ¬lookupEntry (performSync
        ⟨⟨[("x", ⟨"x", "primary version", [], 0, 0, 4, 0, ""⟩)], none,
          fun _ => none, fun _ => none, []⟩,
         ⟨[("x", ⟨"x", "secondary version", [], 0, 0, 4, 0, ""⟩)], none,
          fun _ => none, fun _ => none, []⟩, 0⟩ 9).service.cloudStore.contents
        "x" = some ⟨"x", "primary version", [], 0, 0, 4, 0, ""⟩ := by
  decide

/-- C9 amended: on an exact timestamp tie the pass writes nothing for
that id, so each store keeps its own version and divergent contents with
equal timestamps persist. -/
theorem tie_performs_no_write (s : SyncService) (now : Nat) (i : String)
    (le ce : Entry)
    (hl : s.localStore.getAllErr = none) (hc : s.cloudStore.getAllErr = none)
    (hwl : s.localStore.WFb = true) (hwc : s.cloudStore.WFb = true)
    (hL : lookupEntry s.localStore.contents i = some le)
    (hC : lookupEntry s.cloudStore.contents i = some ce)
    (ht : le.LastModifiedTimestamp = ce.LastModifiedTimestamp) :
    lookupEntry (performSync s now).service.localStore.contents i = some le ∧
    lookupEntry (performSync s now).service.cloudStore.contents i = some ce := by
  obtain ⟨hnl, hkl⟩ : nodupKeys s.localStore.contents = true ∧
      keysMatch s.localStore.contents = true := by
    simpa [Store.WFb, Bool.and_eq_true] using hwl
  obtain ⟨hnc, hkc⟩ : nodupKeys s.cloudStore.contents = true ∧
      keysMatch s.cloudStore.contents = true := by
    simpa [Store.WFb, Bool.and_eq_true] using hwc
  have hngt : ¬ce.LastModifiedTimestamp < le.LastModifiedTimestamp := by
    rw [ht]
    exact Nat.lt_irrefl _
  have hnlt : ¬le.LastModifiedTimestamp < ce.LastModifiedTimestamp := by
    rw [ht]
    exact Nat.lt_irrefl _
  constructor
  · rw [performSync_eq s now hl hc]
    dsimp only
    rw [syncCloudLoop_local_lookup _ _ _ _ _ hnc hkc,
      loop2LocalView_some _ _ _ _ _ hC]
    have hck : containsKey s.localStore.contents i = true := by
      rw [containsKey_eq_isSome_lookupEntry, hL]
      rfl
    rw [if_pos hck, syncLocalLoop_local_lookup _ hkc _ _ _ _ _ _ hnl,
      loop1LocalView_some _ _ _ _ _ hL, hC]
    dsimp only
    rw [if_neg hngt, if_neg hnlt]
    exact hL
  · rw [performSync_eq s now hl hc]
    dsimp only
    rw [syncLocalLoop_cloud_lookup _ _ _ _ _ _ _ hnl hkl,
      loop1CloudView_some _ _ _ _ _ hL, hC]
    dsimp only
    rw [if_neg hngt]

/-- Witness for C9 amended, at the same concrete tie. -/
theorem tie_performs_no_write_witness :
    lookupEntry (performSync
        ⟨⟨[("x", ⟨"x", "primary version", [], 0, 0, 4, 0, ""⟩)], none,
          fun _ => none, fun _ => none, []⟩,
         ⟨[("x", ⟨"x", "secondary version", [], 0, 0, 4, 0, ""⟩)], none,
          fun _ => none, fun _ => none, []⟩, 0⟩ 9).service.localStore.contents
        "x" = some ⟨"x", "primary version", [], 0, 0, 4, 0, ""⟩ :=
  (tie_performs_no_write
    ⟨⟨[("x", ⟨"x", "primary version", [], 0, 0, 4, 0, ""⟩)], none,
      fun _ => none, fun _ => none, []⟩,
     ⟨[("x", ⟨"x", "secondary version", [], 0, 0, 4, 0, ""⟩)], none,
      fun _ => none, fun _ => none, []⟩, 0⟩ 9 "x"
    ⟨"x", "primary version", [], 0, 0, 4, 0, ""⟩
    ⟨"x", "secondary version", [], 0, 0, 4, 0, ""⟩
    rfl rfl (by decide) (by decide) (by decide) (by decide) rfl).1

/-- C7: a pass never issues a delete against either store, the set of
ids each store holds can only grow, and a record missing from one store
while present in the other is re-created by the pass. -/
theorem no_delete_ids_only_grow (s : SyncService) (now : Nat)
    (hl : s.localStore.getAllErr = none) (hc : s.cloudStore.getAllErr = none)
    (hwl : s.localStore.WFb = true) (hwc : s.cloudStore.WFb = true) :
    (∀ op ∈ (performSync s now).service.localStore.ops,
      op.isDel = true → op ∈ s.localStore.ops) ∧
    (∀ op ∈ (performSync s now).service.cloudStore.ops,
      op.isDel = true → op ∈ s.cloudStore.ops) ∧
    (∀ id, containsKey s.localStore.contents id = true →
      containsKey (performSync s now).service.localStore.contents id = true) ∧
    (∀ id, containsKey s.cloudStore.contents id = true →
      containsKey (performSync s now).service.cloudStore.contents id = true) ∧
    (∀ id e, lookupEntry s.localStore.contents id = none →
      lookupEntry s.cloudStore.contents id = some e →
      s.localStore.saveErr e = none →
      lookupEntry (performSync s now).service.localStore.contents id = some e) := by
  obtain ⟨hnl, hkl⟩ : nodupKeys s.localStore.contents = true ∧
      keysMatch s.localStore.contents = true := by
    simpa [Store.WFb, Bool.and_eq_true] using hwl
  obtain ⟨hnc, hkc⟩ : nodupKeys s.cloudStore.contents = true ∧
      keysMatch s.cloudStore.contents = true := by
    simpa [Store.WFb, Bool.and_eq_true] using hwc
  refine ⟨?_, ?_, ?_, ?_, ?_⟩
  · intro op hop hdel
    rcases performSync_local_op_cases s now op hl hc hop with h | ⟨p, hp, hsh⟩ | ⟨p, hp, hsh⟩
    · exact h
    · obtain ⟨ce2, _, _, hshape⟩ := loop1LocalOp_shape hsh
      rw [hshape] at hdel
      cases hdel
    · obtain ⟨hshape, _⟩ := loop2LocalOp_shape hsh
      rw [hshape] at hdel
      cases hdel
  · intro op hop hdel
    rcases performSync_cloud_op_cases s now op hl hc hop with h | ⟨p, hp, hsh⟩
    · exact h
    · obtain ⟨hshape, _⟩ := loop1CloudOp_shape hsh
      rw [hshape] at hdel
      cases hdel
  · intro id hid
    rw [containsKey_eq_isSome_lookupEntry] at hid ⊢
    cases hLo : lookupEntry s.localStore.contents id with
    | none => rw [hLo] at hid; cases hid
    | some le =>
        rw [performSync_eq s now hl hc]
        dsimp only
        rw [syncCloudLoop_local_lookup _ _ _ _ _ hnc hkc]
        cases hCo : lookupEntry s.cloudStore.contents id with
        | none =>
            rw [loop2LocalView_none _ _ _ _ hCo,
              syncLocalLoop_local_lookup _ hkc _ _ _ _ _ _ hnl,
              loop1LocalView_some _ _ _ _ _ hLo, hCo]
            dsimp only
            rw [hLo]
            rfl
        | some ce =>
            rw [loop2LocalView_some _ _ _ _ _ hCo]
            have hck : containsKey s.localStore.contents id = true := by
              rw [containsKey_eq_isSome_lookupEntry, hLo]
              rfl
            rw [if_pos hck, syncLocalLoop_local_lookup _ hkc _ _ _ _ _ _ hnl,
              loop1LocalView_some _ _ _ _ _ hLo, hCo]
            dsimp only
            by_cases h1 : ce.LastModifiedTimestamp < le.LastModifiedTimestamp
            · rw [if_pos h1, hLo]
              rfl
            · by_cases h2 : le.LastModifiedTimestamp < ce.LastModifiedTimestamp
              · rw [if_neg h1, if_pos h2]
                by_cases hs : s.localStore.saveErr ce = none
                · rw [if_pos hs]
                  rfl
                · rw [if_neg hs, hLo]
                  rfl
              · rw [if_neg h1, if_neg h2, hLo]
                rfl
  · intro id hid
    rw [containsKey_eq_isSome_lookupEntry] at hid ⊢
    cases hCo : lookupEntry s.cloudStore.contents id with
    | none => rw [hCo] at hid; cases hid
    | some ce =>
        rw [performSync_eq s now hl hc]
        dsimp only
        rw [syncLocalLoop_cloud_lookup _ _ _ _ _ _ _ hnl hkl]
        cases hLo : lookupEntry s.localStore.contents id with
        | none =>
            rw [loop1CloudView_none _ _ _ _ hLo, hCo]
            rfl
        | some le =>
            rw [loop1CloudView_some _ _ _ _ _ hLo, hCo]
            dsimp only
            by_cases h1 : ce.LastModifiedTimestamp < le.LastModifiedTimestamp
            · rw [if_pos h1]
              by_cases hs : s.cloudStore.saveErr le = none
              · rw [if_pos hs]
                rfl
              · rw [if_neg hs]
                rfl
            · rw [if_neg h1]
              rfl
  · intro id e hLo hCo hs
    rw [performSync_eq s now hl hc]
    dsimp only
    rw [syncCloudLoop_local_lookup _ _ _ _ _ hnc hkc,
      loop2LocalView_some _ _ _ _ _ hCo]
    have hck : ¬containsKey s.localStore.contents id = true := by
      rw [containsKey_eq_isSome_lookupEntry, hLo]
      simp
    rw [if_neg hck,
      (syncLocalLoop_preserve s.cloudStore.contents s.localStore.contents
        s.localStore s.cloudStore 0 0).1, hs, if_pos rfl]

/-- Witness for C7: a record present only in the cloud (as after a local
delete) is re-created locally by the pass, and no delete is in the local
trace. -/
theorem no_delete_ids_only_grow_witness :
    lookupEntry (performSync
        ⟨⟨[], none, fun _ => none, fun _ => none, []⟩,
         ⟨[("d", ⟨"d", "kept", [], 0, 0, 6, 0, ""⟩)], none, fun _ => none,
          fun _ => none, []⟩, 0⟩ 9).service.localStore.contents "d" =
      some ⟨"d", "kept", [], 0, 0, 6, 0, ""⟩ :=
  (no_delete_ids_only_grow
    ⟨⟨[], none, fun _ => none, fun _ => none, []⟩,
     ⟨[("d", ⟨"d", "kept", [], 0, 0, 6, 0, ""⟩)], none, fun _ => none,
      fun _ => none, []⟩, 0⟩ 9 rfl rfl (by decide) (by decide)).2.2.2.2
    "d" ⟨"d", "kept", [], 0, 0, 6, 0, ""⟩ rfl rfl rfl

/-- C5: with stores whose upserts all succeed and pass records through
unchanged, a second pass immediately after a first one performs zero
upserts: it returns both stores completely unchanged, traces included,
and counts (0, 0). -/
theorem second_pass_is_noop (s : SyncService) (now1 now2 : Nat)
    (hl : s.localStore.getAllErr = none) (hc : s.cloudStore.getAllErr = none)
    (hsl : ∀ e, s.localStore.saveErr e = none)
    (hsc : ∀ e, s.cloudStore.saveErr e = none)
    (hwl : s.localStore.WFb = true) (hwc : s.cloudStore.WFb = true) :
    performSync (performSync s now1).service now2 =
      ⟨⟨(performSync s now1).service.localStore,
        (performSync s now1).service.cloudStore, now2⟩, some (0, 0)⟩ := by
  have hpre := performSync_preserve s now1
  have hl1 : (performSync s now1).service.localStore.getAllErr = none :=
    hpre.2.1.trans hl
  have hc1 : (performSync s now1).service.cloudStore.getAllErr = none :=
    hpre.2.2.2.trans hc
  obtain ⟨hagree1, hagree2⟩ := performSync_agree s now1 hl hc hsl hsc hwl hwc
  rw [performSync_eq _ now2 hl1 hc1, syncLocalLoop_noop _ _ _ _ 0 0 hagree1]
  dsimp only
  rw [syncCloudLoop_noop _ _ _ _ hagree2]

/-- Witness for C5 at a concrete pair of diverged stores. -/
theorem second_pass_is_noop_witness :
    performSync (performSync
        ⟨⟨[("1", ⟨"1", "a", [], 0, 0, 5, 0, ""⟩)], none, fun _ => none,
          fun _ => none, []⟩,
         ⟨[("2", ⟨"2", "b", [], 0, 0, 7, 0, ""⟩)], none, fun _ => none,
          fun _ => none, []⟩, 0⟩ 3).service 8 =
      ⟨⟨(performSync
          ⟨⟨[("1", ⟨"1", "a", [], 0, 0, 5, 0, ""⟩)], none, fun _ => none,
            fun _ => none, []⟩,
           ⟨[("2", ⟨"2", "b", [], 0, 0, 7, 0, ""⟩)], none, fun _ => none,
            fun _ => none, []⟩, 0⟩ 3).service.localStore,
        (performSync
          ⟨⟨[("1", ⟨"1", "a", [], 0, 0, 5, 0, ""⟩)], none, fun _ => none,
            fun _ => none, []⟩,
           ⟨[("2", ⟨"2", "b", [], 0, 0, 7, 0, ""⟩)], none, fun _ => none,
            fun _ => none, []⟩, 0⟩ 3).service.cloudStore, 8⟩, some (0, 0)⟩ :=
  second_pass_is_noop
    ⟨⟨[("1", ⟨"1", "a", [], 0, 0, 5, 0, ""⟩)], none, fun _ => none,
      fun _ => none, []⟩,
     ⟨[("2", ⟨"2", "b", [], 0, 0, 7, 0, ""⟩)], none, fun _ => none,
      fun _ => none, []⟩, 0⟩ 3 8 rfl rfl (fun _ => rfl) (fun _ => rfl)
    (by decide) (by decide)

/-- C8 counterexample: a push-only pass and a pull-only pass yield the
very same counts (1, 0), so the pass outcome does not separate pushes
from pulls; and a pass with one failed upsert also yields (1, 0), so no
component of the outcome carries the failure count. -/
theorem pass_counts_counterexample :
    (performSync
        ⟨⟨[("1", ⟨"1", "a", [], 0, 0, 1, 0, ""⟩)], none, fun _ => none,
          fun _ => none, []⟩,
         ⟨[], none, fun _ => none, fun _ => none, []⟩, 0⟩ 3).counts =
      some (1, 0) ∧
    (performSync
        ⟨⟨[], none, fun _ => none, fun _ => none, []⟩,
         ⟨[("1", ⟨"1", "a", [], 0, 0, 1, 0, ""⟩)], none, fun _ => none,
          fun _ => none, []⟩, 0⟩ 3).counts =
      some (1, 0) ∧
    (performSync
        ⟨⟨[("1", ⟨"1", "a", [], 0, 0, 1, 0, ""⟩)], none, fun _ => none,
          fun _ => none, []⟩,
         ⟨[], none, fun _ => none, fun _ => none, []⟩, 0⟩ 3).service.cloudStore.ops =
      [StoreOp.save ⟨"1", "a", [], 0, 0, 1, 0, ""⟩ true] ∧
    (performSync
        ⟨⟨[("1", ⟨"1", "a", [], 0, 0, 1, 0, ""⟩)], none, fun _ => none,
          fun _ => none, []⟩,
         ⟨[], none, fun _ => none, fun _ => none, []⟩, 0⟩ 3).service.localStore.ops =
      [] ∧
    (performSync
        ⟨⟨[], none, fun _ => none, fun _ => none, []⟩,
         ⟨[("1", ⟨"1", "a", [], 0, 0, 1, 0, ""⟩)], none, fun _ => none,
          fun _ => none, []⟩, 0⟩ 3).service.localStore.ops =
      [StoreOp.save ⟨"1", "a", [], 0, 0, 1, 0, ""⟩ true] ∧
    (performSync
        ⟨⟨[("5", ⟨"5", "f", [], 0, 0, 1, 0, ""⟩), ("6", ⟨"6", "g", [], 0, 0, 1, 0, ""⟩)],
          none, fun _ => none, fun _ => none, []⟩,
         ⟨[], none, fun e => if e.ID = "5" then some "rejected" else none,
          fun _ => none, []⟩, 0⟩ 3).counts =
      some (1, 0) ∧
    (performSync
        ⟨⟨[("5", ⟨"5", "f", [], 0, 0, 1, 0, ""⟩), ("6", ⟨"6", "g", [], 0, 0, 1, 0, ""⟩)],
          none, fun _ => none, fun _ => none, []⟩,
         ⟨[], none, fun e => if e.ID = "5" then some "rejected" else none,
          fun _ => none, []⟩, 0⟩ 3).service.cloudStore.ops =
      [StoreOp.save ⟨"5", "f", [], 0, 0, 1, 0, ""⟩ false,
       StoreOp.save ⟨"6", "g", [], 0, 0, 1, 0, ""⟩ true] := by
  decide

/-- C8 amended: a pass produces exactly two merged counters: a synced
count adding successful pushes, successful local-newer updates and
successful pulls, and a conflict count of successful cloud-newer
updates; failed upserts are simply not counted, and the on-demand
trigger returns only the updated service, not the counts. -/
theorem pass_outcome_counts (s : SyncService) (now : Nat)
    (hl : s.localStore.getAllErr = none) (hc : s.cloudStore.getAllErr = none) :
    (performSync s now).counts = some
      (s.localStore.contents.countP
          (loop1SyncedHit s.cloudStore.contents s.cloudStore.saveErr) +
        s.cloudStore.contents.countP
          (loop2SyncedHit s.localStore.contents s.localStore.saveErr),
       s.localStore.contents.countP
          (loop1ConflictHit s.cloudStore.contents s.localStore.saveErr)) ∧
    SyncService.SyncNow s now = (performSync s now).service := by
  constructor
  · rw [performSync_eq s now hl hc]
    dsimp only
    rw [syncCloudLoop_counts, syncLocalLoop_counts,
      (syncLocalLoop_preserve s.cloudStore.contents s.localStore.contents
        s.localStore s.cloudStore 0 0).1]
    dsimp only
    rw [Nat.zero_add, Nat.zero_add]
  · rfl

/-- Witness for C8 amended: one push, one pull and one cloud-newer
update give counts (2, 1). -/
theorem pass_outcome_counts_witness :
    (performSync
        ⟨⟨[("1", ⟨"1", "a", [], 0, 0, 5, 0, ""⟩), ("3", ⟨"3", "b", [], 0, 0, 2, 0, ""⟩)],
          none, fun _ => none, fun _ => none, []⟩,
         ⟨[("2", ⟨"2", "c", [], 0, 0, 3, 0, ""⟩), ("3", ⟨"3", "d", [], 0, 0, 7, 0, ""⟩)],
          none, fun _ => none, fun _ => none, []⟩, 0⟩ 4).counts =
      some (2, 1) := by
  rw [(pass_outcome_counts
    ⟨⟨[("1", ⟨"1", "a", [], 0, 0, 5, 0, ""⟩), ("3", ⟨"3", "b", [], 0, 0, 2, 0, ""⟩)],
      none, fun _ => none, fun _ => none, []⟩,
     ⟨[("2", ⟨"2", "c", [], 0, 0, 3, 0, ""⟩), ("3", ⟨"3", "d", [], 0, 0, 7, 0, ""⟩)],
      none, fun _ => none, fun _ => none, []⟩, 0⟩ 4 rfl rfl).1]
  decide

end Zenzen
